import Mathlib

/-!
Verification of the Skycoin hardware-wallet protocol engine
(`src/skywallet/skywallet.go`) against its natural-language specification.

The Go code is shallowly embedded as pure Lean functions.  The device, the
transport and the driver are external collaborators; their behaviour is
modelled by finite scripts carried in the engine state:

* `connects`  — one entry per `Driver.GetDevice` call (`true` = a handle is
  returned, `false` = the driver errors);
* `writes`   — one entry per raw batched frame write (`d.dev.Write` over the
  chunks of one message, or `sendToDeviceNoAnswer`); `false` = write error;
* `exchanges` — one entry per `Driver.SendToDevice` round trip
  (`none` = transport error, `some m` = the reassembled reply);
* `reads`    — one entry per `wire.ReadFrom` (`none` = read error).

An exhausted script behaves like a transport failure.  Handles are numbered
consecutively by `nextHandle`, and every connection-lifecycle or frame-send
step is recorded in an event trace, so that claims about "no I/O before the
error", "no upload frame is ever sent" or "at most one open handle" are
statements about that trace.  Message kinds are an enumeration standing for
the protobuf `MessageType` values; the Go code only ever compares kinds for
equality, so only their distinctness matters.  Failure payload decoding
(`DecodeFailMsg`, external to the engine file) is modelled from the spec: it
is the decoder for `Failure` responses, yielding the human-readable text
carried in the message data, and erring on any other message kind.
-/

namespace Skywallet

/-- Logical message kinds relevant to the engine, standing for the distinct
protobuf `MessageType` codes the Go code compares against. -/
inductive MsgKind where
  | success
  | failure
  | buttonRequest
  | entropyRequest
  | entropy
  | other (code : Nat)
deriving DecidableEq, Repr

/-- A reassembled logical message: a kind tag plus payload bytes
(`wire.Message` in the Go code).  For `failure` messages the payload is the
already-decoded failure text, for `entropy` messages the entropy bytes. -/
structure WireMessage where
  kind : MsgKind
  data : List Nat
deriving DecidableEq, Repr

/-- The device type of the driver (`DeviceTypeUSB` / `DeviceTypeEmulator` /
`DeviceTypeInvalid`). -/
inductive DeviceType where
  | usb
  | emulator
  | invalid
deriving DecidableEq, Repr

/-- Identifies which request a frame batch carries, for the event trace.
`getEntropy n` records the byte count a `GetRawEntropy`-style request asks
for (the argument passed to `getEntropyMsgBuilder`). -/
inductive ReqKind where
  | addressGen
  | applySettings
  | backup
  | cancel
  | changePin
  | checkMessageSignature
  | connectedProbe
  | buttonAck
  | entropyAck
  | generateMnemonic
  | recovery
  | setMnemonic
  | signMessage
  | transactionSign
  | wipe
  | getFeatures
  | passphraseAck
  | wordAck
  | pinMatrixAck
  | initDevice
  | firmwareErase
  | firmwareUpload
  | simulateButton
  | getEntropy (n : Nat)
deriving DecidableEq, Repr

/-- Observable transport events: opening a handle via the driver, closing a
handle, and sending one request's frames on a handle. -/
inductive Event where
  | devOpen (h : Nat)
  | devClose (h : Nat)
  | send (h : Nat) (r : ReqKind)
deriving DecidableEq, Repr

/-- The state of one `Device` value plus the scripted behaviour of its
external collaborators.  `dev` is the `dev usb.Device` field (the latest
connection instance; it may point at an already-closed handle, exactly as in
the Go code, which never nils it after a deferred `Close`). -/
structure DState where
  deviceType : DeviceType
  dev : Option Nat
  nextHandle : Nat
  simulateButtonPress : Bool
  simulateButtonType : Int
  connects : List Bool
  writes : List Bool
  exchanges : List (Option WireMessage)
  reads : List (Option WireMessage)
deriving DecidableEq, Repr

/-- Structured errors returned by the engine. -/
inductive Err where
  | addressNZero
  | usePassphraseNil
  | removePinNil
  | deviceTypeEmulator
  | invalidWordCount
  | notConnected
  | connectFailed
  | writeFailed
  | readFailed
  | exchangeFailed
  | deviceFailure (text : List Nat)
  | decodeWrongType
  | unexpectedMsgKind (k : MsgKind)
  | unknownResponse
  | wrongDeviceTypeSim
  | invalidButtonType
  | fileSizeMismatch
deriving DecidableEq, Repr

/-- Modelled from the spec: `DecodeFailMsg` (in the repository's message
codec, outside the engine source file) is the decoder for `Failure`
responses — "decode the payload into a human-readable string".  On a
`Failure` message it yields the decoded text (the message data); applied to
any other kind it errors, since it is the decoder for that one kind. -/
def DecodeFailMsg (m : WireMessage) : Except Err (List Nat) :=
  if m.kind = MsgKind.failure then Except.ok m.data else Except.error Err.decodeWrongType

/-- `Device.Connect`: close any existing connection, then ask the driver for
a device.  Returns the fresh handle (the value stored into `d.dev`). -/
def Connect (s : DState) : Except Err Nat × DState × List Event :=
  let closePrev : List Event :=
    match s.dev with
    | some h => [Event.devClose h]
    | none => []
  let s₁ : DState := { s with dev := none }
  match s₁.connects with
  | [] => (Except.error Err.connectFailed, s₁, closePrev)
  | ok :: rest =>
      if ok then
        (Except.ok s₁.nextHandle,
         { s₁ with connects := rest, dev := some s₁.nextHandle,
                   nextHandle := s₁.nextHandle + 1 },
         closePrev ++ [Event.devOpen s₁.nextHandle])
      else
        (Except.error Err.connectFailed, { s₁ with connects := rest }, closePrev)

/-- Write one message's chunk sequence to the raw handle (`d.dev.Write` over
each 64-byte element, or `sendToDeviceNoAnswer`).  The `Bool` is whether the
write succeeded. -/
def writeMsg (h : Nat) (r : ReqKind) (s : DState) : Bool × DState × List Event :=
  match s.writes with
  | [] => (false, s, [Event.send h r])
  | w :: rest => (w, { s with writes := rest }, [Event.send h r])

/-- `Driver.SendToDevice`: write all chunks of one request and read back one
reassembled logical message. -/
def SendToDevice (h : Nat) (r : ReqKind) (s : DState) :
    Except Err WireMessage × DState × List Event :=
  match s.exchanges with
  | [] => (Except.error Err.exchangeFailed, s, [Event.send h r])
  | none :: rest => (Except.error Err.exchangeFailed, { s with exchanges := rest },
      [Event.send h r])
  | some m :: rest => (Except.ok m, { s with exchanges := rest }, [Event.send h r])

/-- `Device.SimulateButtonPress`: refuse on a non-emulator driver, otherwise
write a raw simulated-press frame on the current handle. -/
def SimulateButtonPress (h : Nat) (s : DState) : Except Err Unit × DState × List Event :=
  if s.deviceType = DeviceType.emulator then
    let (ok, s₁, tr₁) := writeMsg h ReqKind.simulateButton s
    (if ok then Except.ok () else Except.error Err.writeFailed, s₁, tr₁)
  else
    (Except.error Err.wrongDeviceTypeSim, s, [])

/-- The entropy-request drain loop shared by `Connected` and `ButtonAck`:
while the current message is an `EntropyRequest`, write an entropy-ack
(whose write error is only logged, never propagated — hence the popped
write result is discarded) and block-read the next message.  Operates on
the write/read scripts directly; returns the terminal message (or the read
error), the remaining scripts, and the emitted events. -/
def drainEntropyRequests (h : Nat) :
    WireMessage → List Bool → List (Option WireMessage) →
    Except Err WireMessage × List Bool × List (Option WireMessage) × List Event
  | m, writes, [] =>
      if m.kind = MsgKind.entropyRequest then
        (Except.error Err.readFailed, writes.tail, [], [Event.send h ReqKind.entropyAck])
      else (Except.ok m, writes, [], [])
  | m, writes, none :: rest =>
      if m.kind = MsgKind.entropyRequest then
        (Except.error Err.readFailed, writes.tail, rest, [Event.send h ReqKind.entropyAck])
      else (Except.ok m, writes, none :: rest, [])
  | m, writes, some m' :: rest =>
      if m.kind = MsgKind.entropyRequest then
        let (res, w₂, r₂, tr₂) := drainEntropyRequests h m' writes.tail rest
        (res, w₂, r₂, Event.send h ReqKind.entropyAck :: tr₂)
      else (Except.ok m, writes, some m' :: rest, [])

/-- `Device.Connected`: the liveness probe.  Returns `false` when no device
instance is held, on a probe-write error, or on any read error; otherwise
drains leading `EntropyRequest` messages and reports whether the terminal
message is a `Success`. -/
def Connected (s : DState) : Bool × DState × List Event :=
  match s.dev with
  | none => (false, s, [])
  | some h =>
      let (wok, s₁, tr₁) := writeMsg h ReqKind.connectedProbe s
      if wok then
        match s₁.reads with
        | [] => (false, s₁, tr₁)
        | none :: rest => (false, { s₁ with reads := rest }, tr₁)
        | some m :: rest =>
            let (res, w₂, r₂, tr₂) := drainEntropyRequests h m s₁.writes rest
            let s₂ := { s₁ with writes := w₂, reads := r₂ }
            match res with
            | Except.error _ => (false, s₂, tr₁ ++ tr₂)
            | Except.ok mf => (decide (mf.kind = MsgKind.success), s₂, tr₁ ++ tr₂)
      else (false, s₁, tr₁)

/-- `Device.Disconnect`: errors when `Connected()` reports false (note that
this runs the full probe, not a mere nil check), otherwise closes the held
handle.  The `dev` field is not cleared. -/
def Disconnect (s : DState) : Except Err Unit × DState × List Event :=
  let (c, s₁, tr₁) := Connected s
  if c then
    match s₁.dev with
    | some h => (Except.ok (), s₁, tr₁ ++ [Event.devClose h])
    | none => (Except.ok (), s₁, tr₁)
  else
    (Except.error Err.notConnected, s₁, tr₁)

/-- `Device.ButtonAck`: reconnect, send the button acknowledgment without
awaiting a direct answer, optionally write a simulated press, then
block-read, draining interleaved `EntropyRequest` messages; the handle is
closed on every exit path after the connect (the deferred
`d.dev.Close(false)`). -/
def ButtonAck (s : DState) : Except Err WireMessage × DState × List Event :=
  match Connect s with
  | (Except.error e, s₁, tr₁) => (Except.error e, s₁, tr₁)
  | (Except.ok h, s₁, tr₁) =>
      let (wok, s₂, tr₂) := writeMsg h ReqKind.buttonAck s₁
      if wok then
        match (if s₂.simulateButtonPress then SimulateButtonPress h s₂
               else (Except.ok (), s₂, [])) with
        | (Except.error e, s₃, tr₃) =>
            (Except.error e, s₃, tr₁ ++ tr₂ ++ tr₃ ++ [Event.devClose h])
        | (Except.ok _, s₃, tr₃) =>
            match s₃.reads with
            | [] => (Except.error Err.readFailed, s₃,
                tr₁ ++ tr₂ ++ tr₃ ++ [Event.devClose h])
            | none :: rest => (Except.error Err.readFailed, { s₃ with reads := rest },
                tr₁ ++ tr₂ ++ tr₃ ++ [Event.devClose h])
            | some m :: rest =>
                let (res, w₄, r₄, tr₄) := drainEntropyRequests h m s₃.writes rest
                let s₄ := { s₃ with writes := w₄, reads := r₄ }
                (res, s₄, tr₁ ++ tr₂ ++ tr₃ ++ tr₄ ++ [Event.devClose h])
      else
        (Except.error Err.writeFailed, s₂, tr₁ ++ tr₂ ++ [Event.devClose h])

/-- The connect / validate / send / deferred-close pattern shared by the
operations that return the device's direct reply verbatim (`AddressGen`,
`ApplySettings`, `Cancel`, `CheckMessageSignature`, `GetFeatures`,
`TransactionSign`, `PassphraseAck`, `WordAck`, `PinMatrixAck`).  The
validation, when present, runs after the connect, exactly as in the
source. -/
def plainOp (r : ReqKind) (validationErr : Option Err) (s : DState) :
    Except Err WireMessage × DState × List Event :=
  match Connect s with
  | (Except.error e, s₁, tr₁) => (Except.error e, s₁, tr₁)
  | (Except.ok h, s₁, tr₁) =>
      match validationErr with
      | some e => (Except.error e, s₁, tr₁ ++ [Event.devClose h])
      | none =>
          let (res, s₂, tr₂) := SendToDevice h r s₁
          (res, s₂, tr₁ ++ tr₂ ++ [Event.devClose h])

/-- The connect / validate / send pattern of the operations that, on a
direct `ButtonRequest` reply, skip the deferred close (`disconnected =
true`) and hand off to a fresh top-level `ButtonAck()` call whose result is
returned (`ChangePin`, `GenerateMnemonic`, `Recovery`, `SetMnemonic`,
`SignMessage`, `Wipe`). -/
def brOp (r : ReqKind) (validationErr : Option Err) (s : DState) :
    Except Err WireMessage × DState × List Event :=
  match Connect s with
  | (Except.error e, s₁, tr₁) => (Except.error e, s₁, tr₁)
  | (Except.ok h, s₁, tr₁) =>
      match validationErr with
      | some e => (Except.error e, s₁, tr₁ ++ [Event.devClose h])
      | none =>
          match SendToDevice h r s₁ with
          | (Except.error e, s₂, tr₂) => (Except.error e, s₂, tr₁ ++ tr₂ ++ [Event.devClose h])
          | (Except.ok m, s₂, tr₂) =>
              if m.kind = MsgKind.buttonRequest then
                let (res, s₃, tr₃) := ButtonAck s₂
                (res, s₃, tr₁ ++ tr₂ ++ tr₃)
              else
                (Except.ok m, s₂, tr₁ ++ tr₂ ++ [Event.devClose h])

/-- `Device.AddressGen`: connect, then reject `addressN = 0`, then send the
request and return the reply verbatim. -/
def AddressGen (addressN _startIndex : Nat) (_confirmAddress : Bool) (s : DState) :
    Except Err WireMessage × DState × List Event :=
  plainOp ReqKind.addressGen (if addressN = 0 then some Err.addressNZero else none) s

/-- `Device.ApplySettings`: connect, then reject an absent `usePassphrase`,
then send. -/
def ApplySettings (usePassphrase : Option Bool) (_label _language : List Nat) (s : DState) :
    Except Err WireMessage × DState × List Event :=
  plainOp ReqKind.applySettings
    (if usePassphrase = none then some Err.usePassphraseNil else none) s

/-- `Device.Cancel`. -/
def Cancel (s : DState) : Except Err WireMessage × DState × List Event :=
  plainOp ReqKind.cancel none s

/-- `Device.CheckMessageSignature`. -/
def CheckMessageSignature (_message _signature _address : List Nat) (s : DState) :
    Except Err WireMessage × DState × List Event :=
  plainOp ReqKind.checkMessageSignature none s

/-- `Device.GetFeatures`. -/
def GetFeatures (s : DState) : Except Err WireMessage × DState × List Event :=
  plainOp ReqKind.getFeatures none s

/-- `Device.TransactionSign`. -/
def TransactionSign (s : DState) : Except Err WireMessage × DState × List Event :=
  plainOp ReqKind.transactionSign none s

/-- `Device.PassphraseAck`. -/
def PassphraseAck (_passphrase : List Nat) (s : DState) :
    Except Err WireMessage × DState × List Event :=
  plainOp ReqKind.passphraseAck none s

/-- `Device.WordAck`. -/
def WordAck (_word : List Nat) (s : DState) :
    Except Err WireMessage × DState × List Event :=
  plainOp ReqKind.wordAck none s

/-- `Device.PinMatrixAck`. -/
def PinMatrixAck (_p : List Nat) (s : DState) :
    Except Err WireMessage × DState × List Event :=
  plainOp ReqKind.pinMatrixAck none s

/-- `Device.ChangePin`: connect, then reject a nil `removePin`, then send;
a direct `ButtonRequest` reply hands off to `ButtonAck()`. -/
def ChangePin (removePin : Option Bool) (s : DState) :
    Except Err WireMessage × DState × List Event :=
  brOp ReqKind.changePin (if removePin = none then some Err.removePinNil else none) s

/-- `Device.GenerateMnemonic`: connect, then reject a word count outside
`{12, 24}`, then send; a direct `ButtonRequest` reply hands off to
`ButtonAck()`. -/
def GenerateMnemonic (wordCount : Nat) (_usePassphrase : Bool) (s : DState) :
    Except Err WireMessage × DState × List Event :=
  brOp ReqKind.generateMnemonic
    (if wordCount ≠ 12 ∧ wordCount ≠ 24 then some Err.invalidWordCount else none) s

/-- `Device.Recovery`: same validation and `ButtonRequest` handoff shape as
`GenerateMnemonic`. -/
def Recovery (wordCount : Nat) (_usePassphrase _dryRun : Bool) (s : DState) :
    Except Err WireMessage × DState × List Event :=
  brOp ReqKind.recovery
    (if wordCount ≠ 12 ∧ wordCount ≠ 24 then some Err.invalidWordCount else none) s

/-- `Device.SetMnemonic`. -/
def SetMnemonic (_mnemonic : List Nat) (s : DState) :
    Except Err WireMessage × DState × List Event :=
  brOp ReqKind.setMnemonic none s

/-- `Device.SignMessage`. -/
def SignMessage (_addressIndex : Nat) (_message : List Nat) (s : DState) :
    Except Err WireMessage × DState × List Event :=
  brOp ReqKind.signMessage none s

/-- `Device.Wipe`. -/
def Wipe (s : DState) : Except Err WireMessage × DState × List Event :=
  brOp ReqKind.wipe none s

/-- `Device.SetAutoPressButton`: pure configuration, no I/O.  Only on an
emulator driver does it store the flag; an invalid button kind is rejected
only when `simulateButtonPress` is true; disabling stores the invalid
sentinel `3`. -/
def SetAutoPressButton (press : Bool) (buttonType : Int) (s : DState) :
    Except Err Unit × DState × List Event :=
  if s.deviceType = DeviceType.emulator then
    let s₁ := { s with simulateButtonPress := press }
    if press then
      if buttonType = 0 ∨ buttonType = 1 ∨ buttonType = 2 then
        (Except.ok (), { s₁ with simulateButtonType := buttonType }, [])
      else
        (Except.error Err.invalidButtonType, s₁, [])
    else
      (Except.ok (), { s₁ with simulateButtonType := 3 }, [])
  else
    (Except.ok (), s, [])

/-- The `for msg.Kind == ButtonRequest` loop of `Device.Backup`: while the
latest reply is a `ButtonRequest`, mark the current handle as handed off
(so `Backup`'s deferred close is skipped) and replace the reply with the
result of a fresh top-level `ButtonAck()`; the first error aborts.  `fuel`
is an artifact of the embedding: every successful `ButtonAck` consumes one
`connects` entry, so `connects.length + 1` rounds always suffice and the
zero-fuel branch is unreachable from `Backup`. -/
def backupButtonLoop : Nat → WireMessage → DState →
    Except Err WireMessage × DState × List Event
  | 0, m, s =>
      if m.kind = MsgKind.buttonRequest then (Except.error Err.connectFailed, s, [])
      else (Except.ok m, s, [])
  | fuel' + 1, m, s =>
      if m.kind = MsgKind.buttonRequest then
        match ButtonAck s with
        | (Except.error e, s₁, tr₁) => (Except.error e, s₁, tr₁)
        | (Except.ok m', s₁, tr₁) =>
            let (res, s₂, tr₂) := backupButtonLoop fuel' m' s₁
            (res, s₂, tr₁ ++ tr₂)
      else (Except.ok m, s, [])

/-- `Device.Backup`: connect, send the backup request, then loop on
`ButtonRequest` replies via `ButtonAck()`; when any loop round runs, the
deferred close of the original handle is skipped (`disconnected = true`)
and `ButtonAck`'s own `Connect` replaces it. -/
def Backup (s : DState) : Except Err WireMessage × DState × List Event :=
  match Connect s with
  | (Except.error e, s₁, tr₁) => (Except.error e, s₁, tr₁)
  | (Except.ok h, s₁, tr₁) =>
      match SendToDevice h ReqKind.backup s₁ with
      | (Except.error e, s₂, tr₂) => (Except.error e, s₂, tr₁ ++ tr₂ ++ [Event.devClose h])
      | (Except.ok m, s₂, tr₂) =>
          if m.kind = MsgKind.buttonRequest then
            let (res, s₃, tr₃) := backupButtonLoop (s₂.connects.length + 1) m s₂
            (res, s₃, tr₁ ++ tr₂ ++ tr₃)
          else
            (Except.ok m, s₂, tr₁ ++ tr₂ ++ [Event.devClose h])

/-- `Device.FirmwareUpload`: refuse on a non-USB driver before any I/O;
connect; run the low-level initialization request (`Initialize`, modelled
from the spec: "runs a low-level initialization request"); send the erase
request and inspect its reply; only on an erase `Success` send the upload
request; a `ButtonRequest` reply to the upload is answered with a
`ButtonAck` exchange whose reply decides the outcome.  Note that both the
upload-phase `Failure` branch and the upload-phase default branch consult
`erasemsg` (the erase reply), exactly as the source does. -/
def FirmwareUpload (_payload _hash : List Nat) (s : DState) :
    Except Err Unit × DState × List Event :=
  if s.deviceType = DeviceType.usb then
    match Connect s with
    | (Except.error e, s₁, tr₁) => (Except.error e, s₁, tr₁)
    | (Except.ok h, s₁, tr₁) =>
        match SendToDevice h ReqKind.initDevice s₁ with
        | (Except.error e, s₂, tr₂) => (Except.error e, s₂, tr₁ ++ tr₂ ++ [Event.devClose h])
        | (Except.ok _, s₂, tr₂) =>
            match SendToDevice h ReqKind.firmwareErase s₂ with
            | (Except.error e, s₃, tr₃) =>
                (Except.error e, s₃, tr₁ ++ tr₂ ++ tr₃ ++ [Event.devClose h])
            | (Except.ok erasemsg, s₃, tr₃) =>
                if erasemsg.kind = MsgKind.success then
                  match SendToDevice h ReqKind.firmwareUpload s₃ with
                  | (Except.error e, s₄, tr₄) =>
                      (Except.error e, s₄, tr₁ ++ tr₂ ++ tr₃ ++ tr₄ ++ [Event.devClose h])
                  | (Except.ok uploadmsg, s₄, tr₄) =>
                      if uploadmsg.kind = MsgKind.buttonRequest then
                        match SendToDevice h ReqKind.buttonAck s₄ with
                        | (Except.error e, s₅, tr₅) =>
                            (Except.error e, s₅,
                             tr₁ ++ tr₂ ++ tr₃ ++ tr₄ ++ tr₅ ++ [Event.devClose h])
                        | (Except.ok resp, s₅, tr₅) =>
                            let out : Except Err Unit :=
                              if resp.kind = MsgKind.success then Except.ok ()
                              else if resp.kind = MsgKind.failure then
                                match DecodeFailMsg resp with
                                | Except.ok txt => Except.error (Err.deviceFailure txt)
                                | Except.error e => Except.error e
                              else Except.error Err.unknownResponse
                            (out, s₅, tr₁ ++ tr₂ ++ tr₃ ++ tr₄ ++ tr₅ ++ [Event.devClose h])
                      else
                        let out : Except Err Unit :=
                          if uploadmsg.kind = MsgKind.failure then
                            match DecodeFailMsg erasemsg with
                            | Except.ok txt => Except.error (Err.deviceFailure txt)
                            | Except.error e => Except.error e
                          else Except.error (Err.unexpectedMsgKind erasemsg.kind)
                        (out, s₄, tr₁ ++ tr₂ ++ tr₃ ++ tr₄ ++ [Event.devClose h])
                else
                  let out : Except Err Unit :=
                    if erasemsg.kind = MsgKind.failure then
                      match DecodeFailMsg erasemsg with
                      | Except.ok txt => Except.error (Err.deviceFailure txt)
                      | Except.error e => Except.error e
                    else Except.error (Err.unexpectedMsgKind erasemsg.kind)
                  (out, s₃, tr₁ ++ tr₂ ++ tr₃ ++ [Event.devClose h])
  else
    (Except.error Err.deviceTypeEmulator, s, [])

/-- The button-acknowledgment write step of `processGetEntropyResponse`:
send the button ack without awaiting an answer, then optionally write a
simulated press (emulator only). -/
def buttonAckWrite (h : Nat) (dt : DeviceType) (simPress : Bool) (writes : List Bool) :
    Except Err Unit × List Bool × List Event :=
  match writes with
  | [] => (Except.error Err.writeFailed, [], [Event.send h ReqKind.buttonAck])
  | wa :: writes₁ =>
      if wa then
        if simPress then
          if dt = DeviceType.emulator then
            match writes₁ with
            | [] => (Except.error Err.writeFailed, [],
                [Event.send h ReqKind.buttonAck, Event.send h ReqKind.simulateButton])
            | ws :: writes₂ =>
                (if ws then Except.ok () else Except.error Err.writeFailed, writes₂,
                 [Event.send h ReqKind.buttonAck, Event.send h ReqKind.simulateButton])
          else (Except.error Err.wrongDeviceTypeSim, writes₁, [Event.send h ReqKind.buttonAck])
        else (Except.ok (), writes₁, [Event.send h ReqKind.buttonAck])
      else (Except.error Err.writeFailed, writes₁, [Event.send h ReqKind.buttonAck])

/-- `processGetEntropyResponse` from `SaveDeviceEntropyInFile`: an `Entropy`
reply yields its decoded payload (`DecodeResponseEntropyMessage`, modelled
from the spec as the decoder for the `Entropy` payload); a `ButtonRequest`
is answered with a no-answer button ack (plus an optional simulated press)
followed by a blocking read and recursion; anything else is decoded as a
failure message and surfaced as an error.  Operates on the write/read
scripts directly. -/
def processGetEntropyResponse (h : Nat) (dt : DeviceType) (simPress : Bool) :
    WireMessage → List Bool → List (Option WireMessage) →
    Except Err (List Nat) × List Bool × List (Option WireMessage) × List Event
  | m, writes, [] =>
      if m.kind = MsgKind.entropy then (Except.ok m.data, writes, [], [])
      else if m.kind = MsgKind.buttonRequest then
        match buttonAckWrite h dt simPress writes with
        | (Except.error e, w₂, tr₂) => (Except.error e, w₂, [], tr₂)
        | (Except.ok _, w₂, tr₂) => (Except.error Err.readFailed, w₂, [], tr₂)
      else
        match DecodeFailMsg m with
        | Except.ok txt => (Except.error (Err.deviceFailure txt), writes, [], [])
        | Except.error e => (Except.error e, writes, [], [])
  | m, writes, none :: rest =>
      if m.kind = MsgKind.entropy then (Except.ok m.data, writes, none :: rest, [])
      else if m.kind = MsgKind.buttonRequest then
        match buttonAckWrite h dt simPress writes with
        | (Except.error e, w₂, tr₂) => (Except.error e, w₂, none :: rest, tr₂)
        | (Except.ok _, w₂, tr₂) => (Except.error Err.readFailed, w₂, rest, tr₂)
      else
        match DecodeFailMsg m with
        | Except.ok txt => (Except.error (Err.deviceFailure txt), writes, none :: rest, [])
        | Except.error e => (Except.error e, writes, none :: rest, [])
  | m, writes, some m' :: rest =>
      if m.kind = MsgKind.entropy then (Except.ok m.data, writes, some m' :: rest, [])
      else if m.kind = MsgKind.buttonRequest then
        match buttonAckWrite h dt simPress writes with
        | (Except.error e, w₂, tr₂) => (Except.error e, w₂, some m' :: rest, tr₂)
        | (Except.ok _, w₂, tr₂) =>
            let (res, w₃, r₃, tr₃) := processGetEntropyResponse h dt simPress m' w₂ rest
            (res, w₃, r₃, tr₂ ++ tr₃)
      else
        match DecodeFailMsg m with
        | Except.ok txt => (Except.error (Err.deviceFailure txt), writes, some m' :: rest, [])
        | Except.error e => (Except.error e, writes, some m' :: rest, [])

/-- The `getEntropy` closure of `SaveDeviceEntropyInFile`: build a request
for `n` further bytes with the caller-supplied builder, send it, and process
the reply. -/
def getEntropy (h n : Nat) (s : DState) : Except Err (List Nat) × DState × List Event :=
  match SendToDevice h (ReqKind.getEntropy n) s with
  | (Except.error e, s₁, tr₁) => (Except.error e, s₁, tr₁)
  | (Except.ok m, s₁, tr₁) =>
      let (res, w₂, r₂, tr₂) :=
        processGetEntropyResponse h s₁.deviceType s₁.simulateButtonPress m s₁.writes s₁.reads
      (res, { s₁ with writes := w₂, reads := r₂ }, tr₁ ++ tr₂)

/-- The `checkProducedFile` closure: for a file sink, the persisted size
(the total number of bytes handed to the sink) must equal the requested
count; for stdout the check is skipped. -/
def checkProducedFile (usingStdout : Bool) (entropyBytes : Nat)
    (written : List (List Nat)) : Except Err Unit :=
  if usingStdout then Except.ok ()
  else if (written.map List.length).sum = entropyBytes then Except.ok ()
  else Except.error Err.fileSizeMismatch

/-- The `for receivedEntropyBytes < entropyBytes` loop of
`SaveDeviceEntropyInFile`: request the remaining count, append the decoded
payload to the sink, and repeat.  `fuel` is an artifact of the embedding:
every round consumes one `exchanges` entry, so `exchanges.length` rounds
always suffice and the zero-fuel branch behaves like an exhausted
exchange script. -/
def entropyLoop (h entropyBytes : Nat) :
    Nat → Nat → List (List Nat) → DState →
    Except Err Unit × DState × List Event × List (List Nat)
  | 0, received, written, s =>
      if received < entropyBytes then (Except.error Err.exchangeFailed, s, [], written)
      else (Except.ok (), s, [], written)
  | fuel' + 1, received, written, s =>
      if received < entropyBytes then
        match getEntropy h (entropyBytes - received) s with
        | (Except.error e, s₁, tr₁) => (Except.error e, s₁, tr₁, written)
        | (Except.ok bytes, s₁, tr₁) =>
            let (res, s₂, tr₂, w₂) :=
              entropyLoop h entropyBytes fuel' (received + bytes.length)
                (written ++ [bytes]) s₁
            (res, s₂, tr₁ ++ tr₂, w₂)
      else (Except.ok (), s, [], written)

/-- `Device.SaveDeviceEntropyInFile`: connect once for the whole stream;
fetch a first chunk with a request for the full count, then loop requesting
the remaining count until `entropyBytes` bytes have been handed to the
sink; verify the produced size for file sinks; the deferred `Disconnect`
(whose error is only logged) runs last.  The sink is modelled as the list
of payloads handed to `processBytes`, in order; file writes themselves are
outside the engine.  Returns (result, state, events, sink writes). -/
def SaveDeviceEntropyInFile (usingStdout : Bool) (entropyBytes : Nat) (s : DState) :
    Except Err Unit × DState × List Event × List (List Nat) :=
  match Connect s with
  | (Except.error e, s₁, tr₁) => (Except.error e, s₁, tr₁, [])
  | (Except.ok h, s₁, tr₁) =>
      let core : Except Err Unit × DState × List Event × List (List Nat) :=
        match getEntropy h entropyBytes s₁ with
        | (Except.error e, s₂, tr₂) => (Except.error e, s₂, tr₂, [])
        | (Except.ok bytes, s₂, tr₂) =>
            let (res, s₃, tr₃, w₃) :=
              entropyLoop h entropyBytes s₂.exchanges.length bytes.length [bytes] s₂
            match res with
            | Except.error e => (Except.error e, s₃, tr₂ ++ tr₃, w₃)
            | Except.ok _ =>
                (checkProducedFile usingStdout entropyBytes w₃, s₃, tr₂ ++ tr₃, w₃)
      match core with
      | (res, s₂, tr₂, w₂) =>
          let (_, s₃, tr₃) := Disconnect s₂
          (res, s₃, tr₁ ++ tr₂ ++ tr₃, w₂)

/-- The request kinds sent in a trace, in order. -/
def sentReqs : List Event → List ReqKind
  | [] => []
  | Event.send _ r :: tr => r :: sentReqs tr
  | Event.devOpen _ :: tr => sentReqs tr
  | Event.devClose _ :: tr => sentReqs tr

/-- The handles opened in a trace, in order. -/
def opensIn : List Event → List Nat
  | [] => []
  | Event.devOpen h :: tr => h :: opensIn tr
  | Event.devClose _ :: tr => opensIn tr
  | Event.send _ _ :: tr => opensIn tr

/-- The handles closed in a trace, in order. -/
def closesIn : List Event → List Nat
  | [] => []
  | Event.devClose h :: tr => h :: closesIn tr
  | Event.devOpen _ :: tr => closesIn tr
  | Event.send _ _ :: tr => closesIn tr

/-- The byte counts of the entropy requests sent in a trace, in order. -/
def entropyRequests : List Event → List Nat
  | [] => []
  | Event.send _ (ReqKind.getEntropy n) :: tr => n :: entropyRequests tr
  | _ :: tr => entropyRequests tr

/-- Whether a trace consists of send events only (no opens or closes). -/
def allSends : List Event → Bool
  | [] => true
  | Event.send _ _ :: tr => allSends tr
  | Event.devOpen _ :: _ => false
  | Event.devClose _ :: _ => false

/-- Replay a trace over the currently open handle (at most one): `true` iff,
starting from `cur` open, no second handle is ever opened while one is
already open.  This is the single-open-handle invariant as a decidable
trace property. -/
def okTrace : Option Nat → List Event → Bool
  | _, [] => true
  | cur, Event.devOpen h :: tr =>
      match cur with
      | none => okTrace (some h) tr
      | some _ => false
  | cur, Event.devClose h :: tr =>
      okTrace (if cur = some h then none else cur) tr
  | cur, Event.send _ _ :: tr => okTrace cur tr

/-- The handle left open after replaying a trace from `cur`. -/
def openAfter : Option Nat → List Event → Option Nat
  | cur, [] => cur
  | _, Event.devOpen h :: tr => openAfter (some h) tr
  | cur, Event.devClose h :: tr =>
      openAfter (if cur = some h then none else cur) tr
  | cur, Event.send _ _ :: tr => openAfter cur tr

/-- The per-round remaining byte counts the streaming loop should request:
for payloads `ps` and prior received count `acc`, the list
`[T - acc, T - acc - l₁, …]`, one entry per payload. -/
def remainders (T : Nat) : List (List Nat) → Nat → List Nat
  | [], _ => []
  | p :: ps, acc => (T - acc) :: remainders T ps (acc + p.length)

/-- Whether an outcome is a device-reported failure (an error carrying a
decoded failure text). -/
def isDeviceFailureErr : Except Err Unit → Bool
  | Except.error (Err.deviceFailure _) => true
  | _ => false

/-- The close event emitted for a previously-held device instance, if any. -/
def closeOld (s : DState) : List Event :=
  match s.dev with
  | some h => [Event.devClose h]
  | none => []

/-- Shape of a successful `Connect`: the old instance (if any) is closed
first, then exactly the next handle is opened and stored. -/
theorem Connect_ok (s : DState) (ct : List Bool) (hc : s.connects = true :: ct) :
    Connect s = (Except.ok s.nextHandle,
      { s with dev := some s.nextHandle, nextHandle := s.nextHandle + 1, connects := ct },
      closeOld s ++ [Event.devOpen s.nextHandle]) := by
  cases hd : s.dev <;> simp [Connect, closeOld, hc, hd]

/-- Shape of a failed `Connect` (driver error): the old instance is still
closed, no handle is opened, `dev` is left empty. -/
theorem Connect_fail (s : DState) (ct : List Bool) (hc : s.connects = false :: ct) :
    Connect s = (Except.error Err.connectFailed,
      { s with dev := none, connects := ct }, closeOld s) := by
  cases hd : s.dev <;> simp [Connect, closeOld, hc, hd]

/-- A fresh USB-typed device whose driver will yield one handle. -/
def cexState : DState :=
  ⟨DeviceType.usb, none, 0, false, -1, [true], [], [], []⟩

/-- C1, counterexample.  `AddressGen(0, …)` and `ChangePin(nil)` do return
their validation errors, but each opens a connection first (the trace
contains a `devOpen`): the Go code calls `Connect()` before the argument
check, so "never opens a connection; no transport I/O of any kind is
performed before the error is returned" fails. -/
theorem C1_cex :
    (AddressGen 0 0 false cexState).1 = Except.error Err.addressNZero ∧
    opensIn (AddressGen 0 0 false cexState).2.2 = [0] ∧
    (ChangePin none cexState).1 = Except.error Err.removePinNil ∧
    opensIn (ChangePin none cexState).2.2 = [0] :=
  ⟨rfl, rfl, rfl, rfl⟩

/-- C1, amended.  When the driver yields a device, `AddressGen` with
`addressN = 0` returns `ErrAddressNZero` and `ChangePin` with `removePin`
absent returns `ErrRemovePinNil`, and no request frames are ever sent to
the device; however the operation first opens a connection (closing any
previous one) and closes it again before returning. -/
theorem C1_validation_after_connect (s : DState) (si : Nat) (c : Bool) (ct : List Bool)
    (hc : s.connects = true :: ct) :
    (AddressGen 0 si c s).1 = Except.error Err.addressNZero ∧
    (AddressGen 0 si c s).2.2 =
      closeOld s ++ [Event.devOpen s.nextHandle, Event.devClose s.nextHandle] ∧
    sentReqs (AddressGen 0 si c s).2.2 = [] ∧
    opensIn (AddressGen 0 si c s).2.2 = [s.nextHandle] ∧
    (ChangePin none s).1 = Except.error Err.removePinNil ∧
    (ChangePin none s).2.2 =
      closeOld s ++ [Event.devOpen s.nextHandle, Event.devClose s.nextHandle] ∧
    sentReqs (ChangePin none s).2.2 = [] ∧
    opensIn (ChangePin none s).2.2 = [s.nextHandle] := by
  cases hd : s.dev <;>
    simp [AddressGen, ChangePin, plainOp, brOp, Connect_ok s ct hc, closeOld, hd,
      sentReqs, opensIn]

/-- C1, witness for the amended theorem at a concrete device state. -/
theorem C1_validation_after_connect_witness :
    (AddressGen 0 0 false cexState).1 = Except.error Err.addressNZero ∧
    (AddressGen 0 0 false cexState).2.2 =
      closeOld cexState ++ [Event.devOpen 0, Event.devClose 0] ∧
    sentReqs (AddressGen 0 0 false cexState).2.2 = [] ∧
    opensIn (AddressGen 0 0 false cexState).2.2 = [0] ∧
    (ChangePin none cexState).1 = Except.error Err.removePinNil ∧
    (ChangePin none cexState).2.2 =
      closeOld cexState ++ [Event.devOpen 0, Event.devClose 0] ∧
    sentReqs (ChangePin none cexState).2.2 = [] ∧
    opensIn (ChangePin none cexState).2.2 = [0] :=
  C1_validation_after_connect cexState 0 false [] rfl

/-- A USB device whose erase-phase reply is a `Failure` with text `[7]`
(after a successful initialization exchange). -/
def c5State : DState :=
  ⟨DeviceType.usb, none, 0, false, -1, [true], [],
   [some ⟨MsgKind.success, []⟩, some ⟨MsgKind.failure, [7]⟩, some ⟨MsgKind.success, []⟩], []⟩

/-- C5.  Whenever the reply to the firmware-erase request has kind
`Failure`, `FirmwareUpload` terminates with a `DeviceFailure` error
carrying the decoded failure text, and no upload-phase frame is ever sent
to the device. -/
theorem C5_erase_failure_blocks_upload (s : DState) (pl hsh : List Nat) (ct : List Bool)
    (i : WireMessage) (txt : List Nat) (eRest : List (Option WireMessage))
    (hdt : s.deviceType = DeviceType.usb)
    (hc : s.connects = true :: ct)
    (he : s.exchanges = some i :: some ⟨MsgKind.failure, txt⟩ :: eRest) :
    (FirmwareUpload pl hsh s).1 = Except.error (Err.deviceFailure txt) ∧
    ReqKind.firmwareUpload ∉ sentReqs (FirmwareUpload pl hsh s).2.2 := by
  cases hd : s.dev <;>
    simp [FirmwareUpload, hdt, Connect_ok s ct hc, closeOld, hd, SendToDevice, he,
      DecodeFailMsg, sentReqs]

/-- C5, witness at a concrete script whose erase reply fails with text
`[7]`. -/
theorem C5_erase_failure_blocks_upload_witness :
    (FirmwareUpload [] [] c5State).1 = Except.error (Err.deviceFailure [7]) ∧
    ReqKind.firmwareUpload ∉ sentReqs (FirmwareUpload [] [] c5State).2.2 :=
  C5_erase_failure_blocks_upload c5State [] [] [] ⟨MsgKind.success, []⟩ [7]
    [some ⟨MsgKind.success, []⟩] rfl rfl rfl

/-- A USB device whose erase succeeds and whose upload-phase reply is a
`Failure` with text `[9, 9]`. -/
def c6State : DState :=
  ⟨DeviceType.usb, none, 0, false, -1, [true], [],
   [some ⟨MsgKind.success, []⟩, some ⟨MsgKind.success, [1, 2]⟩,
    some ⟨MsgKind.failure, [9, 9]⟩], []⟩

/-- C6, counterexample.  With a successful erase and an upload-phase
`Failure` reply (text `[9, 9]`), the operation does not fail with any
decoded failure text at all: the source passes the erase reply — a
`Success` — to `DecodeFailMsg`, so the caller receives that decoder's
wrong-message-type error, not "the decoded failure text of the erase
reply" (which has none, being a `Success`). -/
theorem C6_cex :
    (FirmwareUpload [] [] c6State).1 = Except.error Err.decodeWrongType ∧
    isDeviceFailureErr (FirmwareUpload [] [] c6State).1 = false :=
  ⟨rfl, rfl⟩

/-- C6, amended.  When the erase phase succeeded and the upload-phase reply
has kind `Failure`, the operation fails with the result of applying the
`Failure`-message decoder to the *erase* reply; the erase reply being a
`Success`, that result is the decoder's wrong-message-type error, and the
upload reply's own failure text is never surfaced. -/
theorem C6_upload_failure_uses_erase_msg (s : DState) (pl hsh d utxt : List Nat)
    (ct : List Bool) (i : WireMessage) (eRest : List (Option WireMessage))
    (hdt : s.deviceType = DeviceType.usb)
    (hc : s.connects = true :: ct)
    (he : s.exchanges = some i :: some ⟨MsgKind.success, d⟩ ::
            some ⟨MsgKind.failure, utxt⟩ :: eRest) :
    DecodeFailMsg ⟨MsgKind.success, d⟩ = Except.error Err.decodeWrongType ∧
    (FirmwareUpload pl hsh s).1 = Except.error Err.decodeWrongType ∧
    isDeviceFailureErr (FirmwareUpload pl hsh s).1 = false := by
  cases hd : s.dev <;>
    simp [FirmwareUpload, hdt, Connect_ok s ct hc, closeOld, hd, SendToDevice, he,
      DecodeFailMsg, isDeviceFailureErr]

/-- C6, witness for the amended theorem at a concrete script. -/
theorem C6_upload_failure_uses_erase_msg_witness :
    DecodeFailMsg ⟨MsgKind.success, [1, 2]⟩ = Except.error Err.decodeWrongType ∧
    (FirmwareUpload [] [] c6State).1 = Except.error Err.decodeWrongType ∧
    isDeviceFailureErr (FirmwareUpload [] [] c6State).1 = false :=
  C6_upload_failure_uses_erase_msg c6State [] [] [1, 2] [9, 9] []
    ⟨MsgKind.success, []⟩ [] rfl rfl rfl

/-- C9, counterexample.  An invalid simulated-button kind (99) raises no
error at all on a USB-typed device, and raises none on an emulator either
when `simulateButtonPress` is false: the validation only runs for an
emulator with simulation enabled. -/
theorem C9_cex :
    (SetAutoPressButton true 99 ⟨DeviceType.usb, none, 0, false, -1, [], [], [], []⟩).1 =
      Except.ok () ∧
    (SetAutoPressButton false 99
        ⟨DeviceType.emulator, none, 0, false, -1, [], [], [], []⟩).1 = Except.ok () :=
  ⟨rfl, rfl⟩

/-- C9, amended.  `SetAutoPressButton` performs no I/O on any call (its
event trace is empty); it returns the invalid-button-kind validation error
exactly when the device type is Emulator, `simulateButtonPress` is true and
the kind is not Left (0), Right (1) or Both (2); in every other case —
including an invalid kind on a non-Emulator device or with simulation
disabled — it returns success. -/
theorem C9_setAutoPressButton (press : Bool) (bt : Int) (s : DState) :
    (SetAutoPressButton press bt s).2.2 = [] ∧
    ((SetAutoPressButton press bt s).1 = Except.error Err.invalidButtonType ↔
      (s.deviceType = DeviceType.emulator ∧ press = true ∧
        ¬(bt = 0 ∨ bt = 1 ∨ bt = 2))) := by
  by_cases hb : bt = 0 ∨ bt = 1 ∨ bt = 2 <;>
    cases hdt : s.deviceType <;> cases press <;>
      simp [SetAutoPressButton, hdt, hb]

/-- Trace projections distribute over concatenation. -/
theorem sentReqs_append (a b : List Event) : sentReqs (a ++ b) = sentReqs a ++ sentReqs b := by
  induction a with
  | nil => rfl
  | cons e tr ih => cases e <;> simp [sentReqs, ih]

/-- `opensIn` distributes over concatenation. -/
theorem opensIn_append (a b : List Event) : opensIn (a ++ b) = opensIn a ++ opensIn b := by
  induction a with
  | nil => rfl
  | cons e tr ih => cases e <;> simp [opensIn, ih]

/-- `closesIn` distributes over concatenation. -/
theorem closesIn_append (a b : List Event) : closesIn (a ++ b) = closesIn a ++ closesIn b := by
  induction a with
  | nil => rfl
  | cons e tr ih => cases e <;> simp [closesIn, ih]

/-- `entropyRequests` distributes over concatenation. -/
theorem entropyRequests_append (a b : List Event) :
    entropyRequests (a ++ b) = entropyRequests a ++ entropyRequests b := by
  induction a with
  | nil => rfl
  | cons e tr ih =>
      cases e with
      | devOpen h => simp [entropyRequests, ih]
      | devClose h => simp [entropyRequests, ih]
      | send h r => cases r <;> simp [entropyRequests, ih]

/-- `allSends` distributes over concatenation. -/
theorem allSends_append (a b : List Event) :
    allSends (a ++ b) = (allSends a && allSends b) := by
  induction a with
  | nil => rfl
  | cons e tr ih => cases e <;> simp [allSends, ih]

/-- The entropy drain emits send events only. -/
theorem drain_allSends (h : Nat) :
    ∀ (rs : List (Option WireMessage)) (m : WireMessage) (ws : List Bool),
      allSends (drainEntropyRequests h m ws rs).2.2.2 = true := by
  intro rs
  induction rs with
  | nil =>
      intro m ws
      by_cases hm : m.kind = MsgKind.entropyRequest <;>
        simp [drainEntropyRequests, hm, allSends]
  | cons r rest ih =>
      intro m ws
      by_cases hm : m.kind = MsgKind.entropyRequest
      · cases r with
        | none => simp [drainEntropyRequests, hm, allSends]
        | some m' =>
            have hih := ih m' ws.tail
            rcases hd : drainEntropyRequests h m' ws.tail rest with ⟨res, w₂, r₂, tr₂⟩
            rw [hd] at hih
            simp [drainEntropyRequests, hm, hd, allSends]
            exact hih
      · cases r <;> simp [drainEntropyRequests, hm, allSends]

/-- A send-only trace closes nothing. -/
theorem closesIn_of_allSends : ∀ (tr : List Event), allSends tr = true → closesIn tr = [] := by
  intro tr
  induction tr with
  | nil => intro _; rfl
  | cons e rest ih =>
      intro hall
      cases e with
      | devOpen h => simp [allSends] at hall
      | devClose h => simp [allSends] at hall
      | send h r =>
          rw [allSends] at hall
          simp [closesIn, ih hall]

/-- A send-only trace opens nothing. -/
theorem opensIn_of_allSends : ∀ (tr : List Event), allSends tr = true → opensIn tr = [] := by
  intro tr
  induction tr with
  | nil => intro _; rfl
  | cons e rest ih =>
      intro hall
      cases e with
      | devOpen h => simp [allSends] at hall
      | devClose h => simp [allSends] at hall
      | send h r =>
          rw [allSends] at hall
          simp [opensIn, ih hall]

/-- `Connected` performs sends only: it neither opens nor closes handles. -/
theorem Connected_allSends (s : DState) : allSends (Connected s).2.2 = true := by
  cases hd : s.dev with
  | none => simp [Connected, hd, allSends]
  | some h =>
      cases hw : s.writes with
      | nil => simp [Connected, writeMsg, hd, hw, allSends]
      | cons w wt =>
          cases w
          · simp [Connected, writeMsg, hd, hw, allSends]
          · cases hr : s.reads with
            | nil => simp [Connected, writeMsg, hd, hw, hr, allSends]
            | cons r rt =>
                cases r with
                | none => simp [Connected, writeMsg, hd, hw, hr, allSends]
                | some m =>
                    have hds := drain_allSends h rt m wt
                    rcases hdr : drainEntropyRequests h m wt rt with ⟨res, w₂, r₂, tr₂⟩
                    rw [hdr] at hds
                    cases res <;>
                      simp [Connected, writeMsg, hd, hw, hr, hdr, allSends_append, allSends] <;>
                        exact hds

/-- `Connected` leaves the held device instance unchanged. -/
theorem Connected_dev (s : DState) : (Connected s).2.1.dev = s.dev := by
  cases hd : s.dev with
  | none => simp [Connected, hd]
  | some h =>
      cases hw : s.writes with
      | nil => simp [Connected, writeMsg, hd, hw]
      | cons w wt =>
          cases w
          · simp [Connected, writeMsg, hd, hw]
          · cases hr : s.reads with
            | nil => simp [Connected, writeMsg, hd, hw, hr]
            | cons r rt =>
                cases r with
                | none => simp [Connected, writeMsg, hd, hw, hr]
                | some m =>
                    rcases hdr : drainEntropyRequests h m wt rt with ⟨res, w₂, r₂, tr₂⟩
                    cases res <;> simp [Connected, writeMsg, hd, hw, hr, hdr]

/-- `Disconnect`, expressed through the probe's result. -/
theorem Disconnect_eq (s : DState) :
    Disconnect s =
      (match (Connected s).1, (Connected s).2.1.dev with
       | true, some h =>
           (Except.ok (), (Connected s).2.1, (Connected s).2.2 ++ [Event.devClose h])
       | true, none => (Except.ok (), (Connected s).2.1, (Connected s).2.2)
       | false, _ =>
           (Except.error Err.notConnected, (Connected s).2.1, (Connected s).2.2)) := by
  unfold Disconnect
  rcases Connected s with ⟨c, s₁, tr₁⟩
  cases c with
  | false => rfl
  | true => cases hd : s₁.dev <;> simp [hd]

/-- C8, amended.  `Disconnect` runs the `Connected()` liveness probe (an
I/O round trip, not a mere nil check): it closes the held handle only when
the probe reports success; when the probe reports false — including the
case of a held handle whose device replies with a non-`Success` message or
whose transport fails — it returns the not-connected error and closes
nothing; with no held device instance it fails likewise without any I/O. -/
theorem C8_disconnect_probe_gated (s : DState) :
    ((Connected s).1 = false → (Disconnect s).1 = Except.error Err.notConnected ∧
      closesIn (Disconnect s).2.2 = []) ∧
    (∀ h, s.dev = some h → (Connected s).1 = true →
      (Disconnect s).1 = Except.ok () ∧ closesIn (Disconnect s).2.2 = [h]) ∧
    (s.dev = none → Disconnect s = (Except.error Err.notConnected, s, [])) := by
  have hdev := Connected_dev s
  have hall := Connected_allSends s
  have hcl := closesIn_of_allSends _ hall
  refine ⟨?_, ?_, ?_⟩
  · intro hc
    rw [Disconnect_eq s, hc]
    cases hd2 : (Connected s).2.1.dev <;> simp [hcl]
  · intro h hh hc
    have hd2 : (Connected s).2.1.dev = some h := by rw [hdev, hh]
    rw [Disconnect_eq s, hc, hd2]
    simp [closesIn_append, closesIn, hcl]
  · intro hd
    have h1 : Connected s = (false, s, []) := by simp [Connected, hd]
    rw [Disconnect_eq s, h1]

/-- A held handle (5) whose liveness probe reads back a `Failure` reply. -/
def c8FailState : DState :=
  ⟨DeviceType.usb, some 5, 6, false, -1, [], [true], [], [some ⟨MsgKind.failure, []⟩]⟩

/-- A held handle (5) whose liveness probe reads back a `Success` reply. -/
def c8OkState : DState :=
  ⟨DeviceType.usb, some 5, 6, false, -1, [], [true], [], [some ⟨MsgKind.success, []⟩]⟩

/-- C8, counterexample.  A device instance is held (handle 5, never closed)
but the liveness probe reads a `Failure` reply, so `Connected()` reports
false and `Disconnect` returns the not-connected error *without closing the
held handle* — refuting "closes the held transport handle when one is
open" (and the returned error is the not-connected one, not a
transport-class failure). -/
theorem C8_cex :
    (Disconnect c8FailState).1 = Except.error Err.notConnected ∧
    closesIn (Disconnect c8FailState).2.2 = [] := ⟨rfl, rfl⟩

/-- C8, witness for the amended theorem: the probe-success instance closes
handle 5, the probe-failure instance closes nothing. -/
theorem C8_disconnect_probe_gated_witness :
    ((Disconnect c8OkState).1 = Except.ok () ∧
      closesIn (Disconnect c8OkState).2.2 = [5]) ∧
    ((Disconnect c8FailState).1 = Except.error Err.notConnected ∧
      closesIn (Disconnect c8FailState).2.2 = []) :=
  ⟨(C8_disconnect_probe_gated c8OkState).2.1 5 rfl rfl,
   (C8_disconnect_probe_gated c8FailState).1 rfl⟩

/-- A message that is not an `EntropyRequest` passes straight through the
drain: nothing is consumed, nothing is sent. -/
theorem drain_not_entropyReq (h : Nat) (m : WireMessage) (ws : List Bool)
    (rs : List (Option WireMessage)) (hm : m.kind ≠ MsgKind.entropyRequest) :
    drainEntropyRequests h m ws rs = (Except.ok m, ws, rs, []) := by
  cases rs with
  | nil => simp [drainEntropyRequests, hm]
  | cons r rest => cases r <;> simp [drainEntropyRequests, hm]

/-- Draining `ds.length + 1` consecutive `EntropyRequest` messages followed
by a terminal message yields that terminal message and sends exactly one
entropy-ack per request, regardless of the write script (entropy-ack write
failures are ignored). -/
theorem drain_through (h : Nat) :
    ∀ (ds : List (List Nat)) (d : List Nat) (ws : List Bool) (m : WireMessage)
      (rest : List (Option WireMessage)), m.kind ≠ MsgKind.entropyRequest →
      ∃ ws', drainEntropyRequests h ⟨MsgKind.entropyRequest, d⟩ ws
          ((ds.map fun x => some ⟨MsgKind.entropyRequest, x⟩) ++ some m :: rest) =
        (Except.ok m, ws', rest,
         List.replicate (ds.length + 1) (Event.send h ReqKind.entropyAck)) := by
  intro ds
  induction ds with
  | nil =>
      intro d ws m rest hm
      exact ⟨ws.tail, by simp [drainEntropyRequests, drain_not_entropyReq h m ws.tail rest hm]⟩
  | cons d' ds' ih =>
      intro d ws m rest hm
      obtain ⟨ws', hws⟩ := ih d' ws.tail m rest hm
      exact ⟨ws', by simp [drainEntropyRequests, hws, List.replicate_succ]⟩

/-- A read failure at any depth of the drain aborts it with a read error;
one entropy-ack was sent per request drained up to that point. -/
theorem drain_through_readFail (h : Nat) :
    ∀ (ds : List (List Nat)) (d : List Nat) (ws : List Bool)
      (rest : List (Option WireMessage)),
      ∃ ws' rs', drainEntropyRequests h ⟨MsgKind.entropyRequest, d⟩ ws
          ((ds.map fun x => some ⟨MsgKind.entropyRequest, x⟩) ++ none :: rest) =
        (Except.error Err.readFailed, ws', rs',
         List.replicate (ds.length + 1) (Event.send h ReqKind.entropyAck)) := by
  intro ds
  induction ds with
  | nil =>
      intro d ws rest
      exact ⟨ws.tail, rest, by simp [drainEntropyRequests]⟩
  | cons d' ds' ih =>
      intro d ws rest
      obtain ⟨ws', rs', hws⟩ := ih d' ws.tail rest
      exact ⟨ws', rs', by simp [drainEntropyRequests, hws, List.replicate_succ]⟩

/-- C3, amended.  `Connected()` returns false with no I/O when no device
instance was ever opened; when the probe write succeeds and the transport
yields any finite number of leading `EntropyRequest` messages followed by a
terminal message, it returns true iff that terminal message is a `Success`,
servicing each request with exactly one entropy-ack write — and this holds
for an *arbitrary* remaining write script `ws`, so failures of the
entropy-ack writes themselves are ignored and do not affect the result;
it returns false on a probe-write failure and on a read failure at any
point in the drain. -/
theorem C3_connected_drain (s : DState) (h : Nat) (ds : List (List Nat)) (m : WireMessage)
    (ws : List Bool) (rest : List (Option WireMessage)) :
    (s.dev = none → Connected s = (false, s, [])) ∧
    (s.dev = some h → s.writes = true :: ws →
      s.reads = (ds.map fun d => some ⟨MsgKind.entropyRequest, d⟩) ++ some m :: rest →
      m.kind ≠ MsgKind.entropyRequest →
      ((Connected s).1 = decide (m.kind = MsgKind.success) ∧
        sentReqs (Connected s).2.2 =
          ReqKind.connectedProbe :: List.replicate ds.length ReqKind.entropyAck)) ∧
    (s.dev = some h → s.writes = false :: ws → (Connected s).1 = false) ∧
    (s.dev = some h → s.writes = true :: ws →
      s.reads = (ds.map fun d => some ⟨MsgKind.entropyRequest, d⟩) ++ none :: rest →
      (Connected s).1 = false) := by
  refine ⟨?_, ?_, ?_, ?_⟩
  · intro hd
    simp [Connected, hd]
  · intro hd hw hr hm
    cases ds with
    | nil =>
        simp only [List.map_nil, List.nil_append] at hr
        simp [Connected, writeMsg, hd, hw, hr, drain_not_entropyReq h m ws rest hm,
          sentReqs]
    | cons d' ds' =>
        simp only [List.map_cons, List.cons_append] at hr
        obtain ⟨ws', hdr⟩ := drain_through h ds' d' ws m rest hm
        cases hmk : m.kind <;>
          simp [Connected, writeMsg, hd, hw, hr, hdr, hmk, sentReqs, sentReqs_append,
            List.replicate_succ] <;>
          · induction ds'.length with
            | zero => simp [sentReqs]
            | succ n ihn => simpa [List.replicate_succ, sentReqs] using ihn
  · intro hd hw
    simp [Connected, writeMsg, hd, hw]
  · intro hd hw hr
    cases ds with
    | nil =>
        simp only [List.map_nil, List.nil_append] at hr
        simp [Connected, writeMsg, hd, hw, hr, drainEntropyRequests]
    | cons d' ds' =>
        simp only [List.map_cons, List.cons_append] at hr
        obtain ⟨ws', rs', hdr⟩ := drain_through_readFail h ds' d' ws rest
        simp [Connected, writeMsg, hd, hw, hr, hdr]

/-- A held handle whose probe succeeds, with an entropy-ack write that
fails (`writes = [true, false]`) inside the drain before a terminal
`Success`. -/
def c3State : DState :=
  ⟨DeviceType.usb, some 0, 1, false, -1, [], [true, false], [],
   [some ⟨MsgKind.entropyRequest, []⟩, some ⟨MsgKind.success, []⟩]⟩

/-- C3, counterexample.  A transport error does occur inside the drain —
the entropy-ack write consumes the `false` entry of the write script — yet
`Connected()` returns `true` (the terminal read is a `Success`): the Go
code only logs entropy-ack write errors, refuting "returns false … on any
transport error at any point in the drain". -/
theorem C3_cex :
    (Connected c3State).1 = true ∧ c3State.writes = [true, false] := ⟨rfl, rfl⟩

/-- A held handle (7) whose probe drains one `EntropyRequest` and then
reads a terminal `Success`. -/
def c3WitState : DState :=
  ⟨DeviceType.usb, some 7, 8, false, -1, [], [true], [],
   [some ⟨MsgKind.entropyRequest, [1]⟩, some ⟨MsgKind.success, []⟩]⟩

/-- C3, witness for the amended theorem: one drained request, terminal
`Success`, result true with exactly one entropy-ack sent after the probe. -/
theorem C3_connected_drain_witness :
    (Connected c3WitState).1 =
      decide ((⟨MsgKind.success, []⟩ : WireMessage).kind = MsgKind.success) ∧
    sentReqs (Connected c3WitState).2.2 =
      ReqKind.connectedProbe :: List.replicate 1 ReqKind.entropyAck :=
  (C3_connected_drain c3WitState 7 [[1]] ⟨MsgKind.success, []⟩ [] []).2.1
    rfl rfl rfl (by decide)

/-- Shape of `Connect`'s trace when a device instance is held: its close is
the very first event. -/
theorem Connect_trace_head (s : DState) (h : Nat) (hd : s.dev = some h) :
    ∃ t, (Connect s).2.2 = Event.devClose h :: t := by
  cases hc : s.connects with
  | nil => exact ⟨[], by simp [Connect, hd, hc]⟩
  | cons b ct =>
      cases b
      · exact ⟨[], by simp [Connect, hd, hc]⟩
      · exact ⟨[Event.devOpen s.nextHandle], by simp [Connect, hd, hc]⟩

/-- Every exit path of `ButtonAck` extends the trace of its own
`Connect`. -/
theorem ButtonAck_trace_split (s : DState) :
    ∃ t, (ButtonAck s).2.2 = (Connect s).2.2 ++ t := by
  rcases hC : Connect s with ⟨res, s₁, tr₁⟩
  cases res with
  | error e => exact ⟨[], by simp [ButtonAck, hC]⟩
  | ok h' =>
      rcases hw : writeMsg h' ReqKind.buttonAck s₁ with ⟨wok, s₂, tr₂⟩
      cases wok
      · exact ⟨tr₂ ++ [Event.devClose h'], by simp [ButtonAck, hC, hw]⟩
      · rcases hsim : (if s₂.simulateButtonPress then SimulateButtonPress h' s₂
            else (Except.ok (), s₂, [])) with ⟨simres, s₃, tr₃⟩
        cases simres with
        | error e =>
            exact ⟨tr₂ ++ tr₃ ++ [Event.devClose h'],
              by simp [ButtonAck, hC, hw, hsim]⟩
        | ok _ =>
            cases hr : s₃.reads with
            | nil =>
                exact ⟨tr₂ ++ tr₃ ++ [Event.devClose h'],
                  by simp [ButtonAck, hC, hw, hsim, hr]⟩
            | cons r rt =>
                cases r with
                | none =>
                    exact ⟨tr₂ ++ tr₃ ++ [Event.devClose h'],
                      by simp [ButtonAck, hC, hw, hsim, hr]⟩
                | some m =>
                    rcases hdr : drainEntropyRequests h' m s₃.writes rt with ⟨res₄, w₄, r₄, tr₄⟩
                    exact ⟨tr₂ ++ tr₃ ++ tr₄ ++ [Event.devClose h'],
                      by cases res₄ <;> simp [ButtonAck, hC, hw, hsim, hr, hdr]⟩

/-- When a device instance is held, the first event of a `ButtonAck()` call
is the close of that instance (performed by its own `Connect`), before any
open. -/
theorem ButtonAck_trace_head (s : DState) (h : Nat) (hd : s.dev = some h) :
    (ButtonAck s).2.2.head? = some (Event.devClose h) := by
  obtain ⟨t, ht⟩ := ButtonAck_trace_split s
  obtain ⟨t', ht'⟩ := Connect_trace_head s h hd
  rw [ht, ht']
  rfl

/-- The engine state at the moment an operation hands off to `ButtonAck()`:
connected to the fresh handle, one connect and one exchange consumed. -/
def afterHandoff (s : DState) (ct : List Bool) (et : List (Option WireMessage)) : DState :=
  { s with dev := some s.nextHandle, nextHandle := s.nextHandle + 1,
           connects := ct, exchanges := et }

/-- A validation-free `brOp` whose direct reply is a `ButtonRequest`
returns exactly the result of a top-level `ButtonAck()` run from the
hand-off state, and its trace is the pre-exchange trace followed by that
`ButtonAck`'s own trace (no close of the fresh handle in between). -/
theorem brOp_buttonRequest (r : ReqKind) (s : DState) (ct : List Bool) (m : WireMessage)
    (et : List (Option WireMessage))
    (hc : s.connects = true :: ct) (he : s.exchanges = some m :: et)
    (hm : m.kind = MsgKind.buttonRequest) :
    brOp r none s =
      ((ButtonAck (afterHandoff s ct et)).1, (ButtonAck (afterHandoff s ct et)).2.1,
       closeOld s ++ [Event.devOpen s.nextHandle, Event.send s.nextHandle r] ++
         (ButtonAck (afterHandoff s ct et)).2.2) := by
  rcases hBA : ButtonAck (afterHandoff s ct et) with ⟨bres, bs, btr⟩
  simp only [afterHandoff] at hBA
  simp [brOp, Connect_ok s ct hc, SendToDevice, he, hm, afterHandoff, hBA]

/-- C2.  For each of `ChangePin`, `GenerateMnemonic`, `Recovery`,
`SetMnemonic`, `SignMessage` and `Wipe`: when the direct device reply to
the operation's request is a `ButtonRequest`, the value returned to the
caller is exactly the result of a subsequent top-level `ButtonAck()` call
run from the hand-off state, the operation's own trace contains no close of
the connection it opened (its deferred close is skipped), and the very
first event of that follow-up `ButtonAck()` is the close of the original
connection — before the follow-up opens its new one. -/
theorem C2_buttonRequest_handoff (s : DState) (ct : List Bool) (m : WireMessage)
    (et : List (Option WireMessage)) (rp up dr : Bool) (wc wc' idx : Nat)
    (mn msgTxt : List Nat)
    (hc : s.connects = true :: ct) (he : s.exchanges = some m :: et)
    (hm : m.kind = MsgKind.buttonRequest)
    (hwc : wc = 12 ∨ wc = 24) (hwc' : wc' = 12 ∨ wc' = 24) :
    ChangePin (some rp) s =
      ((ButtonAck (afterHandoff s ct et)).1, (ButtonAck (afterHandoff s ct et)).2.1,
       closeOld s ++ [Event.devOpen s.nextHandle, Event.send s.nextHandle ReqKind.changePin]
         ++ (ButtonAck (afterHandoff s ct et)).2.2) ∧
    GenerateMnemonic wc up s =
      ((ButtonAck (afterHandoff s ct et)).1, (ButtonAck (afterHandoff s ct et)).2.1,
       closeOld s ++ [Event.devOpen s.nextHandle,
         Event.send s.nextHandle ReqKind.generateMnemonic]
         ++ (ButtonAck (afterHandoff s ct et)).2.2) ∧
    Recovery wc' up dr s =
      ((ButtonAck (afterHandoff s ct et)).1, (ButtonAck (afterHandoff s ct et)).2.1,
       closeOld s ++ [Event.devOpen s.nextHandle, Event.send s.nextHandle ReqKind.recovery]
         ++ (ButtonAck (afterHandoff s ct et)).2.2) ∧
    SetMnemonic mn s =
      ((ButtonAck (afterHandoff s ct et)).1, (ButtonAck (afterHandoff s ct et)).2.1,
       closeOld s ++ [Event.devOpen s.nextHandle, Event.send s.nextHandle ReqKind.setMnemonic]
         ++ (ButtonAck (afterHandoff s ct et)).2.2) ∧
    SignMessage idx msgTxt s =
      ((ButtonAck (afterHandoff s ct et)).1, (ButtonAck (afterHandoff s ct et)).2.1,
       closeOld s ++ [Event.devOpen s.nextHandle, Event.send s.nextHandle ReqKind.signMessage]
         ++ (ButtonAck (afterHandoff s ct et)).2.2) ∧
    Wipe s =
      ((ButtonAck (afterHandoff s ct et)).1, (ButtonAck (afterHandoff s ct et)).2.1,
       closeOld s ++ [Event.devOpen s.nextHandle, Event.send s.nextHandle ReqKind.wipe]
         ++ (ButtonAck (afterHandoff s ct et)).2.2) ∧
    (ButtonAck (afterHandoff s ct et)).2.2.head? =
      some (Event.devClose s.nextHandle) := by
  refine ⟨?_, ?_, ?_, ?_, ?_, ?_, ?_⟩
  · simpa [ChangePin] using brOp_buttonRequest ReqKind.changePin s ct m et hc he hm
  · rcases hwc with h12 | h24 <;> subst wc <;>
      simpa [GenerateMnemonic] using
        brOp_buttonRequest ReqKind.generateMnemonic s ct m et hc he hm
  · rcases hwc' with h12 | h24 <;> subst wc' <;>
      simpa [Recovery] using brOp_buttonRequest ReqKind.recovery s ct m et hc he hm
  · simpa [SetMnemonic] using brOp_buttonRequest ReqKind.setMnemonic s ct m et hc he hm
  · simpa [SignMessage] using brOp_buttonRequest ReqKind.signMessage s ct m et hc he hm
  · simpa [Wipe] using brOp_buttonRequest ReqKind.wipe s ct m et hc he hm
  · exact ButtonAck_trace_head (afterHandoff s ct et) s.nextHandle rfl

/-- A device whose direct reply is a `ButtonRequest` and whose follow-up
`ButtonAck` reads back a `Success`. -/
def c2State : DState :=
  ⟨DeviceType.usb, none, 0, false, -1, [true, true], [true],
   [some ⟨MsgKind.buttonRequest, []⟩], [some ⟨MsgKind.success, [9]⟩]⟩

/-- C2, witness at a concrete script for all six operations. -/
theorem C2_buttonRequest_handoff_witness :
    ChangePin (some false) c2State =
      ((ButtonAck (afterHandoff c2State [true] [])).1,
       (ButtonAck (afterHandoff c2State [true] [])).2.1,
       closeOld c2State ++ [Event.devOpen 0, Event.send 0 ReqKind.changePin]
         ++ (ButtonAck (afterHandoff c2State [true] [])).2.2) ∧
    GenerateMnemonic 12 false c2State =
      ((ButtonAck (afterHandoff c2State [true] [])).1,
       (ButtonAck (afterHandoff c2State [true] [])).2.1,
       closeOld c2State ++ [Event.devOpen 0, Event.send 0 ReqKind.generateMnemonic]
         ++ (ButtonAck (afterHandoff c2State [true] [])).2.2) ∧
    Recovery 24 false false c2State =
      ((ButtonAck (afterHandoff c2State [true] [])).1,
       (ButtonAck (afterHandoff c2State [true] [])).2.1,
       closeOld c2State ++ [Event.devOpen 0, Event.send 0 ReqKind.recovery]
         ++ (ButtonAck (afterHandoff c2State [true] [])).2.2) ∧
    SetMnemonic [3] c2State =
      ((ButtonAck (afterHandoff c2State [true] [])).1,
       (ButtonAck (afterHandoff c2State [true] [])).2.1,
       closeOld c2State ++ [Event.devOpen 0, Event.send 0 ReqKind.setMnemonic]
         ++ (ButtonAck (afterHandoff c2State [true] [])).2.2) ∧
    SignMessage 1 [5] c2State =
      ((ButtonAck (afterHandoff c2State [true] [])).1,
       (ButtonAck (afterHandoff c2State [true] [])).2.1,
       closeOld c2State ++ [Event.devOpen 0, Event.send 0 ReqKind.signMessage]
         ++ (ButtonAck (afterHandoff c2State [true] [])).2.2) ∧
    Wipe c2State =
      ((ButtonAck (afterHandoff c2State [true] [])).1,
       (ButtonAck (afterHandoff c2State [true] [])).2.1,
       closeOld c2State ++ [Event.devOpen 0, Event.send 0 ReqKind.wipe]
         ++ (ButtonAck (afterHandoff c2State [true] [])).2.2) ∧
    (ButtonAck (afterHandoff c2State [true] [])).2.2.head? =
      some (Event.devClose 0) :=
  C2_buttonRequest_handoff c2State [true] ⟨MsgKind.buttonRequest, []⟩ []
    false false false 12 24 1 [3] [5] rfl rfl rfl (Or.inl rfl) (Or.inr rfl)

/-- Shape of a fully successful `ButtonAck` (no simulation, no interleaved
entropy requests): reconnect, send the ack, read the reply, close. -/
theorem ButtonAck_ok (s : DState) (ct wt : List Bool) (m : WireMessage)
    (rt : List (Option WireMessage))
    (hsp : s.simulateButtonPress = false)
    (hc : s.connects = true :: ct) (hw : s.writes = true :: wt)
    (hr : s.reads = some m :: rt) (hm : m.kind ≠ MsgKind.entropyRequest) :
    ButtonAck s = (Except.ok m,
      { s with dev := some s.nextHandle, nextHandle := s.nextHandle + 1,
               connects := ct, writes := wt, reads := rt },
      closeOld s ++ [Event.devOpen s.nextHandle, Event.send s.nextHandle ReqKind.buttonAck,
        Event.devClose s.nextHandle]) := by
  simp [ButtonAck, Connect_ok s ct hc, writeMsg, hw, hsp, hr,
    drain_not_entropyReq s.nextHandle m wt rt hm]

/-- A `ButtonAck` whose reconnect fails reports the connect error. -/
theorem ButtonAck_connectFail (s : DState) (ct : List Bool)
    (hc : s.connects = false :: ct) :
    (ButtonAck s).1 = Except.error Err.connectFailed := by
  simp [ButtonAck, Connect_fail s ct hc]

/-- The events of `n` successive `ButtonAck` rounds started with device
instance `d` held and next fresh handle `h`: each round closes the
previously held instance (`ButtonAck`'s own `Connect`), opens a fresh
handle, sends the ack and closes the fresh handle (the deferred close). -/
def baRounds (d : Option Nat) (h : Nat) : Nat → List Event
  | 0 => []
  | k + 1 =>
      (match d with
       | some h' => [Event.devClose h']
       | none => []) ++
      [Event.devOpen h, Event.send h ReqKind.buttonAck, Event.devClose h] ++
      baRounds (some h) (h + 1) k

/-- Running `Backup`'s button loop over `ms.length` consecutive
`ButtonRequest` replies followed by a terminal reply `mf` returns `mf` and
performs exactly one `ButtonAck` round per reply. -/
theorem backupLoop_run :
    ∀ (ms : List WireMessage) (mf m : WireMessage) (s : DState) (fuel : Nat)
      (cR wR : List Bool) (rR : List (Option WireMessage)),
      m.kind = MsgKind.buttonRequest →
      s.simulateButtonPress = false →
      s.connects = List.replicate (ms.length + 1) true ++ cR →
      s.writes = List.replicate (ms.length + 1) true ++ wR →
      s.reads = ms.map some ++ some mf :: rR →
      (∀ x ∈ ms, x.kind = MsgKind.buttonRequest) →
      (∀ x ∈ ms, x.kind ≠ MsgKind.entropyRequest) →
      mf.kind ≠ MsgKind.buttonRequest →
      mf.kind ≠ MsgKind.entropyRequest →
      ms.length + 1 ≤ fuel →
      backupButtonLoop fuel m s =
        (Except.ok mf,
         { s with dev := some (s.nextHandle + ms.length),
                  nextHandle := s.nextHandle + ms.length + 1,
                  connects := cR, writes := wR, reads := rR },
         baRounds s.dev s.nextHandle (ms.length + 1)) := by
  intro ms
  induction ms with
  | nil =>
      intro mf m s fuel cR wR rR hm hsp hc hw hr _ _ hmf hmf' hfuel
      simp only [List.length_nil, List.replicate_succ, List.replicate_zero,
        List.nil_append, List.map_nil] at hc hw hr
      cases fuel with
      | zero => omega
      | succ f =>
          have hBA := ButtonAck_ok s cR wR mf rR hsp hc hw hr hmf'
          cases f with
          | zero =>
              simp [backupButtonLoop, hm, hBA, hmf, baRounds, closeOld]
          | succ f' =>
              simp [backupButtonLoop, hm, hBA, hmf, baRounds, closeOld]
  | cons m₁ rest ih =>
      intro mf m s fuel cR wR rR hm hsp hc hw hr hms hms' hmf hmf' hfuel
      simp only [List.length_cons, List.replicate_succ, List.cons_append,
        List.map_cons] at hc hw hr
      cases fuel with
      | zero => omega
      | succ f =>
          have hBA := ButtonAck_ok s (List.replicate (rest.length + 1) true ++ cR)
            (List.replicate (rest.length + 1) true ++ wR) m₁
            (rest.map some ++ some mf :: rR) hsp hc hw hr
            (hms' m₁ (List.mem_cons_self m₁ rest))
          have hrec := ih mf m₁
            ({ s with dev := some s.nextHandle, nextHandle := s.nextHandle + 1,
                      connects := List.replicate (rest.length + 1) true ++ cR,
                      writes := List.replicate (rest.length + 1) true ++ wR,
                      reads := rest.map some ++ some mf :: rR }) f cR wR rR
            (hms m₁ (List.mem_cons_self m₁ rest)) hsp rfl rfl rfl
            (fun x hx => hms x (List.mem_cons_of_mem m₁ hx))
            (fun x hx => hms' x (List.mem_cons_of_mem m₁ hx)) hmf hmf'
            (by simp only [List.length_cons] at hfuel; omega)
          simp only [backupButtonLoop, hm, if_pos rfl, hBA]
          simp [hrec, baRounds, closeOld, Nat.add_assoc, Nat.add_comm, Nat.add_left_comm]

/-- Running `Backup`'s button loop when every scripted reply is a
`ButtonRequest` and the next reconnect fails yields the connect error (the
first failing round's error is returned). -/
theorem backupLoop_error :
    ∀ (ms : List WireMessage) (m : WireMessage) (s : DState) (fuel : Nat)
      (cR wR : List Bool) (rR : List (Option WireMessage)),
      m.kind = MsgKind.buttonRequest →
      s.simulateButtonPress = false →
      s.connects = List.replicate ms.length true ++ false :: cR →
      s.writes = List.replicate ms.length true ++ wR →
      s.reads = ms.map some ++ rR →
      (∀ x ∈ ms, x.kind = MsgKind.buttonRequest) →
      (∀ x ∈ ms, x.kind ≠ MsgKind.entropyRequest) →
      ms.length + 1 ≤ fuel →
      (backupButtonLoop fuel m s).1 = Except.error Err.connectFailed := by
  intro ms
  induction ms with
  | nil =>
      intro m s fuel cR wR rR hm hsp hc _ _ _ _ hfuel
      simp only [List.length_nil, List.replicate_zero, List.nil_append] at hc
      cases fuel with
      | zero => omega
      | succ f =>
          rcases hBA : ButtonAck s with ⟨bres, bs, btr⟩
          have h1 := ButtonAck_connectFail s cR hc
          rw [hBA] at h1
          simp at h1
          subst h1
          simp [backupButtonLoop, hm, hBA]
  | cons m₁ rest ih =>
      intro m s fuel cR wR rR hm hsp hc hw hr hms hms' hfuel
      simp only [List.length_cons, List.replicate_succ, List.cons_append,
        List.map_cons] at hc hw hr
      cases fuel with
      | zero => omega
      | succ f =>
          have hBA := ButtonAck_ok s (List.replicate rest.length true ++ false :: cR)
            (List.replicate rest.length true ++ wR) m₁ (rest.map some ++ rR) hsp hc hw hr
            (hms' m₁ (List.mem_cons_self m₁ rest))
          have hrec := ih m₁
            ({ s with dev := some s.nextHandle, nextHandle := s.nextHandle + 1,
                      connects := List.replicate rest.length true ++ false :: cR,
                      writes := List.replicate rest.length true ++ wR,
                      reads := rest.map some ++ rR }) f cR wR rR
            (hms m₁ (List.mem_cons_self m₁ rest)) hsp rfl rfl rfl
            (fun x hx => hms x (List.mem_cons_of_mem m₁ hx))
            (fun x hx => hms' x (List.mem_cons_of_mem m₁ hx))
            (by simp only [List.length_cons] at hfuel; omega)
          rcases hL : backupButtonLoop f m₁
            ({ s with dev := some s.nextHandle, nextHandle := s.nextHandle + 1,
                      connects := List.replicate rest.length true ++ false :: cR,
                      writes := List.replicate rest.length true ++ wR,
                      reads := rest.map some ++ rR }) with ⟨lres, ls, ltr⟩
          rw [hL] at hrec
          simp at hrec
          subst hrec
          simp [backupButtonLoop, hm, hBA, hL]

/-- C10.  `Backup` loops on `ButtonRequest`: (i) a non-`ButtonRequest`
direct reply is returned as-is, with the connection closed; (ii) for any
run whose direct reply and whose first `ms.length` follow-up replies are
all `ButtonRequest` and whose next follow-up reply `mf` is not, `Backup`
returns `mf`, and its trace shows one `ButtonAck` round per
`ButtonRequest`, each round starting by closing the handle left by the
previous round (`Backup` itself never closes the handle once the loop has
run — the first event after `send backup` is the close performed by
`ButtonAck`'s own `Connect`); (iii) if every scripted reply is a
`ButtonRequest` and a round's reconnect fails, `Backup` returns that first
error. -/
theorem C10_backup_buttonRequest_loop :
    (∀ (s : DState) (m₀ : WireMessage) (cR : List Bool)
       (eR : List (Option WireMessage)),
      s.dev = none → s.connects = true :: cR → s.exchanges = some m₀ :: eR →
      m₀.kind ≠ MsgKind.buttonRequest →
      (Backup s).1 = Except.ok m₀ ∧
      (Backup s).2.2 = [Event.devOpen s.nextHandle,
        Event.send s.nextHandle ReqKind.backup, Event.devClose s.nextHandle]) ∧
    (∀ (s : DState) (ms : List WireMessage) (mf m₀ : WireMessage)
       (cR wR : List Bool) (eR rR : List (Option WireMessage)),
      s.dev = none →
      s.simulateButtonPress = false →
      s.connects = true :: (List.replicate (ms.length + 1) true ++ cR) →
      s.writes = List.replicate (ms.length + 1) true ++ wR →
      s.exchanges = some m₀ :: eR →
      s.reads = ms.map some ++ some mf :: rR →
      m₀.kind = MsgKind.buttonRequest →
      (∀ x ∈ ms, x.kind = MsgKind.buttonRequest) →
      (∀ x ∈ ms, x.kind ≠ MsgKind.entropyRequest) →
      mf.kind ≠ MsgKind.buttonRequest →
      mf.kind ≠ MsgKind.entropyRequest →
      (Backup s).1 = Except.ok mf ∧
      (Backup s).2.2 =
        [Event.devOpen s.nextHandle, Event.send s.nextHandle ReqKind.backup] ++
          baRounds (some s.nextHandle) (s.nextHandle + 1) (ms.length + 1)) ∧
    (∀ (s : DState) (ms : List WireMessage) (m₀ : WireMessage)
       (cR wR : List Bool) (eR rR : List (Option WireMessage)),
      s.dev = none →
      s.simulateButtonPress = false →
      s.connects = true :: (List.replicate ms.length true ++ false :: cR) →
      s.writes = List.replicate ms.length true ++ wR →
      s.exchanges = some m₀ :: eR →
      s.reads = ms.map some ++ rR →
      m₀.kind = MsgKind.buttonRequest →
      (∀ x ∈ ms, x.kind = MsgKind.buttonRequest) →
      (∀ x ∈ ms, x.kind ≠ MsgKind.entropyRequest) →
      (Backup s).1 = Except.error Err.connectFailed) := by
  refine ⟨?_, ?_, ?_⟩
  · intro s m₀ cR eR hdev hc he hm₀
    constructor <;> simp [Backup, Connect_ok s cR hc, SendToDevice, he, hm₀, closeOld, hdev]
  · intro s ms mf m₀ cR wR eR rR hdev hsp hc hw he hr hm₀ hms hms' hmf hmf'
    have hL := backupLoop_run ms mf m₀
      ({ s with dev := some s.nextHandle, nextHandle := s.nextHandle + 1,
                connects := List.replicate (ms.length + 1) true ++ cR,
                exchanges := eR })
      (ms.length + 1 + cR.length + 1) cR wR rR
      hm₀ hsp rfl hw hr hms hms' hmf hmf'
      (by omega)
    constructor <;>
      simp [Backup, Connect_ok s _ hc, SendToDevice, he, hm₀, hL, closeOld, hdev]
  · intro s ms m₀ cR wR eR rR hdev hsp hc hw he hr hm₀ hms hms'
    have hL := backupLoop_error ms m₀
      ({ s with dev := some s.nextHandle, nextHandle := s.nextHandle + 1,
                connects := List.replicate ms.length true ++ false :: cR,
                exchanges := eR })
      (ms.length + (cR.length + 1) + 1) cR wR rR
      hm₀ hsp rfl hw hr hms hms'
      (by omega)
    rcases hLL : backupButtonLoop (ms.length + (cR.length + 1) + 1)
      m₀ ({ s with dev := some s.nextHandle, nextHandle := s.nextHandle + 1,
                   connects := List.replicate ms.length true ++ false :: cR,
                   exchanges := eR }) with ⟨lres, ls, ltr⟩
    rw [hLL] at hL
    simp at hL
    subst hL
    simp [Backup, Connect_ok s _ hc, SendToDevice, he, hm₀, hLL, closeOld, hdev]

/-- A `Backup` run: direct reply `ButtonRequest`, one follow-up
`ButtonRequest`, then a terminal `Success` carrying `[3]`. -/
def c10State : DState :=
  ⟨DeviceType.usb, none, 0, false, -1, [true, true, true], [true, true],
   [some ⟨MsgKind.buttonRequest, []⟩],
   [some ⟨MsgKind.buttonRequest, []⟩, some ⟨MsgKind.success, [3]⟩]⟩

/-- A `Backup` run whose replies are all `ButtonRequest` and whose second
`ButtonAck` round fails to reconnect. -/
def c10ErrState : DState :=
  ⟨DeviceType.usb, none, 0, false, -1, [true, true, false], [true],
   [some ⟨MsgKind.buttonRequest, []⟩], [some ⟨MsgKind.buttonRequest, []⟩]⟩

/-- C10, witness: two `ButtonRequest` replies then `Success{[3]}` returns
that success with the expected two-round trace; an all-`ButtonRequest` run
with a failing reconnect returns the connect error. -/
theorem C10_backup_buttonRequest_loop_witness :
    ((Backup c10State).1 = Except.ok ⟨MsgKind.success, [3]⟩ ∧
      (Backup c10State).2.2 =
        [Event.devOpen 0, Event.send 0 ReqKind.backup] ++ baRounds (some 0) 1 2) ∧
    (Backup c10ErrState).1 = Except.error Err.connectFailed :=
  ⟨C10_backup_buttonRequest_loop.2.1 c10State [⟨MsgKind.buttonRequest, []⟩]
      ⟨MsgKind.success, [3]⟩ ⟨MsgKind.buttonRequest, []⟩ [] [] [] []
      rfl rfl rfl rfl rfl rfl rfl (by decide) (by decide) (by decide) (by decide),
   C10_backup_buttonRequest_loop.2.2 c10ErrState [⟨MsgKind.buttonRequest, []⟩]
      ⟨MsgKind.buttonRequest, []⟩ [] [] [] []
      rfl rfl rfl rfl rfl rfl rfl (by decide) (by decide)⟩

/-- An `Entropy` reply passes straight through the response processor. -/
theorem processGetEntropyResponse_entropy (h : Nat) (dt : DeviceType) (sp : Bool)
    (p : List Nat) (ws : List Bool) (rs : List (Option WireMessage)) :
    processGetEntropyResponse h dt sp ⟨MsgKind.entropy, p⟩ ws rs =
      (Except.ok p, ws, rs, []) := by
  cases rs with
  | nil => simp [processGetEntropyResponse]
  | cons r rest => cases r <;> simp [processGetEntropyResponse]

/-- A `getEntropy` round whose reply is an `Entropy` message consumes one
exchange and yields the decoded payload. -/
theorem getEntropy_entropy (h n : Nat) (s : DState) (p : List Nat)
    (et : List (Option WireMessage))
    (he : s.exchanges = some ⟨MsgKind.entropy, p⟩ :: et) :
    getEntropy h n s = (Except.ok p, { s with exchanges := et },
      [Event.send h (ReqKind.getEntropy n)]) := by
  simp [getEntropy, SendToDevice, he, processGetEntropyResponse_entropy]

/-- The streaming loop over a script of pure `Entropy` replies whose
lengths continue the running total exactly to `entropyBytes`: each round
requests the remaining count, appends its payload to the sink in order,
and the loop stops exactly when the total is reached. -/
theorem entropyLoop_ok (h T : Nat) :
    ∀ (ps : List (List Nat)) (fuel received : Nat) (written : List (List Nat))
      (s : DState) (eRest : List (Option WireMessage)),
      s.exchanges = ps.map (fun p => some ⟨MsgKind.entropy, p⟩) ++ eRest →
      received + (ps.map List.length).sum = T →
      (∀ i, i < ps.length → received + ((ps.take i).map List.length).sum < T) →
      ps.length ≤ fuel →
      entropyLoop h T fuel received written s =
        (Except.ok (), { s with exchanges := eRest },
         (remainders T ps received).map (fun n => Event.send h (ReqKind.getEntropy n)),
         written ++ ps) := by
  intro ps
  induction ps with
  | nil =>
      intro fuel received written s eRest he hsum hpre hfuel
      have hrT : received = T := by simpa using hsum
      simp only [List.map_nil, List.nil_append] at he
      subst eRest
      cases fuel <;> simp [entropyLoop, hrT, remainders]
  | cons p ps' ih =>
      intro fuel received written s eRest he hsum hpre hfuel
      have hrecv : received < T := by
        have := hpre 0 (by simp)
        simpa using this
      simp only [List.map_cons, List.cons_append] at he
      simp only [List.map_cons, List.sum_cons] at hsum
      cases fuel with
      | zero => simp at hfuel
      | succ f =>
          have hge := getEntropy_entropy h (T - received) s p
            (ps'.map (fun q => some ⟨MsgKind.entropy, q⟩) ++ eRest) he
          have hih := ih f (received + p.length) (written ++ [p])
            ({ s with exchanges := ps'.map (fun q => some ⟨MsgKind.entropy, q⟩) ++ eRest })
            eRest rfl (by omega)
            (by
              intro i hi
              have := hpre (i + 1) (by simpa using Nat.succ_lt_succ hi)
              simpa [List.take_succ_cons, Nat.add_assoc] using this)
            (by simpa using Nat.le_of_succ_le_succ (by simpa using hfuel))
          simp [entropyLoop, hrecv, hge, hih, remainders]

/-- The entropy drain sends no entropy-count requests. -/
theorem drain_entropyRequests (h : Nat) :
    ∀ (rs : List (Option WireMessage)) (m : WireMessage) (ws : List Bool),
      entropyRequests (drainEntropyRequests h m ws rs).2.2.2 = [] := by
  intro rs
  induction rs with
  | nil =>
      intro m ws
      by_cases hm : m.kind = MsgKind.entropyRequest <;>
        simp [drainEntropyRequests, hm, entropyRequests]
  | cons r rest ih =>
      intro m ws
      by_cases hm : m.kind = MsgKind.entropyRequest
      · cases r with
        | none => simp [drainEntropyRequests, hm, entropyRequests]
        | some m' =>
            have hih := ih m' ws.tail
            rcases hd : drainEntropyRequests h m' ws.tail rest with ⟨res, w₂, r₂, tr₂⟩
            rw [hd] at hih
            simpa [drainEntropyRequests, hm, hd, entropyRequests] using hih
      · cases r <;> simp [drainEntropyRequests, hm, entropyRequests]

/-- `Connected` sends no entropy-count requests. -/
theorem Connected_entropyRequests (s : DState) :
    entropyRequests (Connected s).2.2 = [] := by
  cases hd : s.dev with
  | none => simp [Connected, hd, entropyRequests]
  | some h =>
      cases hw : s.writes with
      | nil => simp [Connected, writeMsg, hd, hw, entropyRequests]
      | cons w wt =>
          cases w
          · simp [Connected, writeMsg, hd, hw, entropyRequests]
          · cases hr : s.reads with
            | nil => simp [Connected, writeMsg, hd, hw, hr, entropyRequests]
            | cons r rt =>
                cases r with
                | none => simp [Connected, writeMsg, hd, hw, hr, entropyRequests]
                | some m =>
                    have hds := drain_entropyRequests h rt m wt
                    rcases hdr : drainEntropyRequests h m wt rt with ⟨res, w₂, r₂, tr₂⟩
                    rw [hdr] at hds
                    cases res <;>
                      simp [Connected, writeMsg, hd, hw, hr, hdr,
                        entropyRequests_append, entropyRequests] <;>
                      exact hds

/-- `Disconnect` sends no entropy-count requests. -/
theorem Disconnect_entropyRequests (s : DState) :
    entropyRequests (Disconnect s).2.2 = [] := by
  have hC := Connected_entropyRequests s
  rw [Disconnect_eq s]
  cases hb : (Connected s).1 <;> cases hd : (Connected s).2.1.dev <;>
    simp [entropyRequests_append, entropyRequests, hC]

/-- Mapping entropy-count requests onto send events is faithful. -/
theorem entropyRequests_map_getEntropy (h : Nat) (ns : List Nat) :
    entropyRequests (ns.map fun n => Event.send h (ReqKind.getEntropy n)) = ns := by
  induction ns with
  | nil => rfl
  | cons n rest ih => simp [entropyRequests, ih]

/-- C4, amended (`T ≥ 1`).  For a requested total `T ≥ 1` and a script of
`Entropy` replies whose payload lengths sum to exactly `T` (each reply
being demanded while the running total is still short of `T`), the
streaming operation succeeds, hands exactly the scripted payloads to the
sink once each and in arrival order, for a total of exactly `T` bytes (the
file-size check passes), and the sequence of entropy requests it sends is
exactly the remaining count at each round — in particular no request is
issued once `receivedBytes` has reached `T`. -/
theorem C4_stream_exact (s : DState) (T : Nat) (ps : List (List Nat)) (ct : List Bool)
    (eRest : List (Option WireMessage))
    (hT : 1 ≤ T)
    (hc : s.connects = true :: ct)
    (he : s.exchanges = ps.map (fun p => some ⟨MsgKind.entropy, p⟩) ++ eRest)
    (hsum : (ps.map List.length).sum = T)
    (hpre : ∀ i, i < ps.length → ((ps.take i).map List.length).sum < T) :
    (SaveDeviceEntropyInFile false T s).1 = Except.ok () ∧
    (SaveDeviceEntropyInFile false T s).2.2.2 = ps ∧
    ((SaveDeviceEntropyInFile false T s).2.2.2.map List.length).sum = T ∧
    entropyRequests (SaveDeviceEntropyInFile false T s).2.2.1 = remainders T ps 0 := by
  cases ps with
  | nil => simp at hsum; omega
  | cons p₀ ps' =>
      simp only [List.map_cons, List.cons_append] at he
      simp only [List.map_cons, List.sum_cons] at hsum
      have hge := getEntropy_entropy s.nextHandle T
        ({ s with dev := some s.nextHandle, nextHandle := s.nextHandle + 1,
                  connects := ct }) p₀
        (ps'.map (fun q => some ⟨MsgKind.entropy, q⟩) ++ eRest) he
      have hL := entropyLoop_ok s.nextHandle T ps' (ps'.length + eRest.length)
        p₀.length [p₀]
        ({ s with dev := some s.nextHandle, nextHandle := s.nextHandle + 1,
                  connects := ct,
                  exchanges := ps'.map (fun q => some ⟨MsgKind.entropy, q⟩) ++ eRest })
        eRest rfl (by omega)
        (by
          intro i hi
          have := hpre (i + 1) (by simpa using Nat.succ_lt_succ hi)
          simpa [List.take_succ_cons, Nat.add_assoc] using this)
        (by omega)
      rcases hD : Disconnect
          ({ s with dev := some s.nextHandle, nextHandle := s.nextHandle + 1,
                    connects := ct, exchanges := eRest }) with ⟨dres, ds, dtr⟩
      have hDe := Disconnect_entropyRequests
        ({ s with dev := some s.nextHandle, nextHandle := s.nextHandle + 1,
                  connects := ct, exchanges := eRest })
      rw [hD] at hDe
      simp only [] at hDe
      have hck : checkProducedFile false T (p₀ :: ps') = Except.ok () := by
        simp [checkProducedFile]
        omega
      cases hdv : s.dev <;>
        simp [SaveDeviceEntropyInFile, Connect_ok s ct hc, closeOld, hdv, hge, hL, hD,
          hck, hsum, entropyRequests_append, entropyRequests, hDe, remainders,
          entropyRequests_map_getEntropy]

/-- A zero-byte entropy stream whose device offers a single empty
`Entropy` reply. -/
def c4State : DState :=
  ⟨DeviceType.usb, none, 0, false, -1, [true], [], [some ⟨MsgKind.entropy, []⟩], []⟩

/-- C4, counterexample at `T = 0`.  With requested total `0` (and a device
reply sequence — one empty `Entropy` payload — summing to `0`), the
operation still sends one entropy request, asking for `0` bytes: the
source requests the first chunk before ever comparing `receivedBytes` with
`totalBytes`, so "issues no further entropy request once receivedBytes
reaches T" fails at `T = 0`, where the two are equal from the start. -/
theorem C4_cex :
    entropyRequests (SaveDeviceEntropyInFile false 0 c4State).2.2.1 = [0] ∧
    (SaveDeviceEntropyInFile false 0 c4State).1 = Except.ok () := ⟨rfl, rfl⟩

/-- A 5-byte entropy stream delivered as chunks of 3 and 2 bytes. -/
def c4WitState : DState :=
  ⟨DeviceType.usb, none, 0, false, -1, [true], [],
   [some ⟨MsgKind.entropy, [1, 2, 3]⟩, some ⟨MsgKind.entropy, [4, 5]⟩], []⟩

/-- C4, witness: requesting 5 bytes against chunks `[1,2,3]` and `[4,5]`
writes exactly those chunks in order and requests `[5, 2]`. -/
theorem C4_stream_exact_witness :
    (SaveDeviceEntropyInFile false 5 c4WitState).1 = Except.ok () ∧
    (SaveDeviceEntropyInFile false 5 c4WitState).2.2.2 = [[1, 2, 3], [4, 5]] ∧
    (((SaveDeviceEntropyInFile false 5 c4WitState).2.2.2).map List.length).sum = 5 ∧
    entropyRequests (SaveDeviceEntropyInFile false 5 c4WitState).2.2.1 =
      remainders 5 [[1, 2, 3], [4, 5]] 0 :=
  C4_stream_exact c4WitState 5 [[1, 2, 3], [4, 5]] [] [] (by decide) rfl rfl (by decide)
    (by decide)

/-- `okTrace` splits over concatenation through `openAfter`. -/
theorem okTrace_append : ∀ (a b : List Event) (cur : Option Nat),
    okTrace cur (a ++ b) = (okTrace cur a && okTrace (openAfter cur a) b) := by
  intro a
  induction a with
  | nil => intro b cur; simp [okTrace, openAfter]
  | cons e tr ih =>
      intro b cur
      cases e with
      | devOpen h =>
          cases cur with
          | none => simp [okTrace, openAfter, ih]
          | some x => simp [okTrace, openAfter]
      | devClose h => simp [okTrace, openAfter, ih]
      | send h r => simp [okTrace, openAfter, ih]

/-- A send-only trace is harmless for the single-handle invariant. -/
theorem okTrace_of_allSends : ∀ (tr : List Event) (cur : Option Nat),
    allSends tr = true → okTrace cur tr = true := by
  intro tr
  induction tr with
  | nil => intro cur _; rfl
  | cons e rest ih =>
      intro cur hall
      cases e with
      | devOpen h => simp [allSends] at hall
      | devClose h => simp [allSends] at hall
      | send h r =>
          rw [allSends] at hall
          simp [okTrace, ih cur hall]

/-- A send-only trace leaves the open handle unchanged. -/
theorem openAfter_of_allSends : ∀ (tr : List Event) (cur : Option Nat),
    allSends tr = true → openAfter cur tr = cur := by
  intro tr
  induction tr with
  | nil => intro cur _; rfl
  | cons e rest ih =>
      intro cur hall
      cases e with
      | devOpen h => simp [allSends] at hall
      | devClose h => simp [allSends] at hall
      | send h r =>
          rw [allSends] at hall
          simp [openAfter, ih cur hall]

/-- An exchange's trace is always the single send event. -/
theorem SendToDevice_trace (h : Nat) (r : ReqKind) (s : DState) :
    (SendToDevice h r s).2.2 = [Event.send h r] := by
  cases he : s.exchanges with
  | nil => simp [SendToDevice, he]
  | cons e rest => cases e <;> simp [SendToDevice, he]

/-- A raw write's trace is always the single send event. -/
theorem writeMsg_trace (h : Nat) (r : ReqKind) (s : DState) :
    (writeMsg h r s).2.2 = [Event.send h r] := by
  cases hw : s.writes with
  | nil => simp [writeMsg, hw]
  | cons w rest => simp [writeMsg, hw]

/-- `Connect` preserves the single-handle invariant and leaves open exactly
the instance it stores in `dev`. -/
theorem Connect_okTrace (s : DState) (cur : Option Nat)
    (hinv : cur = none ∨ cur = s.dev) :
    okTrace cur (Connect s).2.2 = true ∧
    openAfter cur (Connect s).2.2 = (Connect s).2.1.dev := by
  rcases hinv with h | h
  · subst h
    cases hd : s.dev with
    | none =>
        cases hc : s.connects with
        | nil => simp [Connect, hd, hc, okTrace, openAfter]
        | cons b ct => cases b <;> simp [Connect, hd, hc, okTrace, openAfter]
    | some x =>
        cases hc : s.connects with
        | nil => simp [Connect, hd, hc, okTrace, openAfter]
        | cons b ct => cases b <;> simp [Connect, hd, hc, okTrace, openAfter]
  · subst h
    cases hd : s.dev with
    | none =>
        cases hc : s.connects with
        | nil => simp [Connect, hd, hc, okTrace, openAfter]
        | cons b ct => cases b <;> simp [Connect, hd, hc, okTrace, openAfter]
    | some x =>
        cases hc : s.connects with
        | nil => simp [Connect, hd, hc, okTrace, openAfter]
        | cons b ct => cases b <;> simp [Connect, hd, hc, okTrace, openAfter]

/-- A successful `Connect` stores the returned handle. -/
theorem Connect_ok_dev (s : DState) (h : Nat) (hok : (Connect s).1 = Except.ok h) :
    (Connect s).2.1.dev = some h := by
  cases hd : s.dev with
  | none =>
      cases hc : s.connects with
      | nil => simp [Connect, hd, hc] at hok
      | cons b ct =>
          cases b
          · simp [Connect, hd, hc] at hok
          · simp [Connect, hd, hc] at hok ⊢
            exact hok
  | some x =>
      cases hc : s.connects with
      | nil => simp [Connect, hd, hc] at hok
      | cons b ct =>
          cases b
          · simp [Connect, hd, hc] at hok
          · simp [Connect, hd, hc] at hok ⊢
            exact hok

/-- `openAfter` splits over concatenation. -/
theorem openAfter_append : ∀ (a b : List Event) (cur : Option Nat),
    openAfter cur (a ++ b) = openAfter (openAfter cur a) b := by
  intro a
  induction a with
  | nil => intro b cur; simp [openAfter]
  | cons e tr ih =>
      intro b cur
      cases e <;> simp [openAfter, ih]

/-- A failed `Connect` leaves no stored instance. -/
theorem Connect_err_dev (s : DState) (e : Err) (herr : (Connect s).1 = Except.error e) :
    (Connect s).2.1.dev = none := by
  cases hd : s.dev with
  | none =>
      cases hc : s.connects with
      | nil => simp [Connect, hd, hc]
      | cons b ct =>
          cases b
          · simp [Connect, hd, hc]
          · simp [Connect, hd, hc] at herr
  | some x =>
      cases hc : s.connects with
      | nil => simp [Connect, hd, hc]
      | cons b ct =>
          cases b
          · simp [Connect, hd, hc]
          · simp [Connect, hd, hc] at herr

/-- An exchange leaves the stored instance unchanged. -/
theorem SendToDevice_dev (h : Nat) (r : ReqKind) (s : DState) :
    (SendToDevice h r s).2.1.dev = s.dev := by
  cases he : s.exchanges with
  | nil => simp [SendToDevice, he]
  | cons e rest => cases e <;> simp [SendToDevice, he]

/-- The optional simulated-press step emits send events only. -/
theorem simStep_allSends (h : Nat) (c : Bool) (s : DState) :
    allSends ((if c then SimulateButtonPress h s else (Except.ok (), s, [])).2.2)
      = true := by
  cases c
  · simp [allSends]
  · by_cases hdt : s.deviceType = DeviceType.emulator
    · cases hw : s.writes with
      | nil => simp [SimulateButtonPress, hdt, writeMsg, hw, allSends]
      | cons w wt => simp [SimulateButtonPress, hdt, writeMsg, hw, allSends]
    · simp [SimulateButtonPress, hdt, allSends]

/-- `ButtonAck` preserves the single-handle invariant, and at its end no
handle is left open (every path closes what it opened). -/
theorem ButtonAck_okTrace (s : DState) (cur : Option Nat)
    (hinv : cur = none ∨ cur = s.dev) :
    okTrace cur (ButtonAck s).2.2 = true ∧
    openAfter cur (ButtonAck s).2.2 = none := by
  have hok := Connect_okTrace s cur hinv
  rcases hC : Connect s with ⟨cres, s₁, tr₁⟩
  rw [hC] at hok
  cases cres with
  | error e =>
      have hdev := Connect_err_dev s e (by rw [hC])
      rw [hC] at hdev
      simp only [] at hok hdev
      simpa [ButtonAck, hC, hdev] using hok
  | ok h =>
      have hdev := Connect_ok_dev s h (by rw [hC])
      rw [hC] at hdev
      simp only [] at hok hdev
      rcases hw : writeMsg h ReqKind.buttonAck s₁ with ⟨wok, s₂, tr₂⟩
      have htr₂ : tr₂ = [Event.send h ReqKind.buttonAck] := by
        have := writeMsg_trace h ReqKind.buttonAck s₁
        rw [hw] at this
        exact this
      subst htr₂
      cases wok
      · simp [ButtonAck, hC, hw, okTrace_append, openAfter_append, hok.1, hok.2, hdev,
          okTrace, openAfter]
      · rcases hsim : (if s₂.simulateButtonPress then SimulateButtonPress h s₂
            else (Except.ok (), s₂, [])) with ⟨simres, s₃, tr₃⟩
        have hall₃ : allSends tr₃ = true := by
          have := simStep_allSends h s₂.simulateButtonPress s₂
          rw [hsim] at this
          exact this
        cases simres with
        | error e =>
            simp [ButtonAck, hC, hw, hsim, okTrace_append, openAfter_append, hok.1,
              hok.2, hdev, okTrace_of_allSends _ _ hall₃,
              openAfter_of_allSends _ _ hall₃, okTrace, openAfter]
        | ok _ =>
            cases hr : s₃.reads with
            | nil =>
                simp [ButtonAck, hC, hw, hsim, hr, okTrace_append, openAfter_append,
                  hok.1, hok.2, hdev, okTrace_of_allSends _ _ hall₃,
                  openAfter_of_allSends _ _ hall₃, okTrace, openAfter]
            | cons rr rt =>
                cases rr with
                | none =>
                    simp [ButtonAck, hC, hw, hsim, hr, okTrace_append, openAfter_append,
                      hok.1, hok.2, hdev, okTrace_of_allSends _ _ hall₃,
                      openAfter_of_allSends _ _ hall₃, okTrace, openAfter]
                | some m =>
                    rcases hdr : drainEntropyRequests h m s₃.writes rt with ⟨res₄, w₄, r₄, tr₄⟩
                    have hall₄ : allSends tr₄ = true := by
                      have := drain_allSends h rt m s₃.writes
                      rw [hdr] at this
                      exact this
                    cases res₄ <;>
                      simp [ButtonAck, hC, hw, hsim, hr, hdr, okTrace_append,
                        openAfter_append, hok.1, hok.2, hdev,
                        okTrace_of_allSends _ _ hall₃, openAfter_of_allSends _ _ hall₃,
                        okTrace_of_allSends _ _ hall₄, openAfter_of_allSends _ _ hall₄,
                        okTrace, openAfter]

/-- The connect/validate/exchange/close pattern preserves the single-handle
invariant. -/
theorem plainOp_okTrace (r : ReqKind) (v : Option Err) (s : DState) (cur : Option Nat)
    (hinv : cur = none ∨ cur = s.dev) :
    okTrace cur (plainOp r v s).2.2 = true := by
  have hok := Connect_okTrace s cur hinv
  rcases hC : Connect s with ⟨cres, s₁, tr₁⟩
  rw [hC] at hok
  cases cres with
  | error e => simpa [plainOp, hC] using hok.1
  | ok h =>
      have hdev := Connect_ok_dev s h (by rw [hC])
      rw [hC] at hdev
      simp only [] at hok hdev
      cases v with
      | some e =>
          simp [plainOp, hC, okTrace_append, openAfter_append, hok.1, hok.2, hdev,
            okTrace, openAfter]
      | none =>
          rcases hx : SendToDevice h r s₁ with ⟨xres, s₂, tr₂⟩
          have htr₂ : tr₂ = [Event.send h r] := by
            have := SendToDevice_trace h r s₁
            rw [hx] at this
            exact this
          subst htr₂
          cases xres <;>
            simp [plainOp, hC, hx, okTrace_append, openAfter_append, hok.1, hok.2,
              hdev, okTrace, openAfter]

/-- The `ButtonRequest`-handoff pattern preserves the single-handle
invariant. -/
theorem brOp_okTrace (r : ReqKind) (v : Option Err) (s : DState) (cur : Option Nat)
    (hinv : cur = none ∨ cur = s.dev) :
    okTrace cur (brOp r v s).2.2 = true := by
  have hok := Connect_okTrace s cur hinv
  rcases hC : Connect s with ⟨cres, s₁, tr₁⟩
  rw [hC] at hok
  cases cres with
  | error e => simpa [brOp, hC] using hok.1
  | ok h =>
      have hdev := Connect_ok_dev s h (by rw [hC])
      rw [hC] at hdev
      simp only [] at hok hdev
      cases v with
      | some e =>
          simp [brOp, hC, okTrace_append, openAfter_append, hok.1, hok.2, hdev,
            okTrace, openAfter]
      | none =>
          rcases hx : SendToDevice h r s₁ with ⟨xres, s₂, tr₂⟩
          have htr₂ : tr₂ = [Event.send h r] := by
            have := SendToDevice_trace h r s₁
            rw [hx] at this
            exact this
          subst htr₂
          have hdev₂ : s₂.dev = some h := by
            have := SendToDevice_dev h r s₁
            rw [hx] at this
            simp only [] at this
            rw [this, hdev]
          cases xres with
          | error e =>
              simp [brOp, hC, hx, okTrace_append, openAfter_append, hok.1, hok.2,
                hdev, okTrace, openAfter]
          | ok m =>
              by_cases hm : m.kind = MsgKind.buttonRequest
              · have hba := ButtonAck_okTrace s₂ (some h) (Or.inr hdev₂.symm)
                rcases hBA : ButtonAck s₂ with ⟨bres, bs, btr⟩
                rw [hBA] at hba
                simp only [] at hba
                simp [brOp, hC, hx, hm, hBA, okTrace_append, openAfter_append, hok.1,
                  hok.2, hdev, hba.1, okTrace, openAfter]
              · simp [brOp, hC, hx, hm, okTrace_append, openAfter_append, hok.1, hok.2,
                  hdev, okTrace, openAfter]

/-- `Backup`'s button loop preserves the single-handle invariant and never
leaves a new handle open beyond what it started with. -/
theorem backupButtonLoop_okTrace :
    ∀ (fuel : Nat) (m : WireMessage) (s : DState) (cur : Option Nat),
      cur = none ∨ cur = s.dev →
      okTrace cur (backupButtonLoop fuel m s).2.2 = true ∧
      (openAfter cur (backupButtonLoop fuel m s).2.2 = none ∨
        openAfter cur (backupButtonLoop fuel m s).2.2 = cur) := by
  intro fuel
  induction fuel with
  | zero =>
      intro m s cur hinv
      by_cases hm : m.kind = MsgKind.buttonRequest <;>
        simp [backupButtonLoop, hm, okTrace, openAfter]
  | succ f ih =>
      intro m s cur hinv
      by_cases hm : m.kind = MsgKind.buttonRequest
      · have hba := ButtonAck_okTrace s cur hinv
        rcases hBA : ButtonAck s with ⟨bres, bs, btr⟩
        rw [hBA] at hba
        simp only [] at hba
        cases bres with
        | error e =>
            simp [backupButtonLoop, hm, hBA, hba.1, hba.2, okTrace, openAfter]
        | ok m' =>
            have hrec := ih m' bs none (Or.inl rfl)
            rcases hL : backupButtonLoop f m' bs with ⟨lres, ls, ltr⟩
            rw [hL] at hrec
            simp only [] at hrec
            have hopen : openAfter cur (btr ++ ltr) = none := by
              rw [openAfter_append, hba.2]
              rcases hrec.2 with h0 | h0 <;> simpa using h0
            constructor
            · simp [backupButtonLoop, hm, hBA, hL, okTrace_append, hba.1, hba.2, hrec.1]
            · left
              simpa [backupButtonLoop, hm, hBA, hL] using hopen
      · simp [backupButtonLoop, hm, okTrace, openAfter]

/-- `Backup` preserves the single-handle invariant. -/
theorem Backup_okTrace (s : DState) (cur : Option Nat)
    (hinv : cur = none ∨ cur = s.dev) :
    okTrace cur (Backup s).2.2 = true := by
  have hok := Connect_okTrace s cur hinv
  rcases hC : Connect s with ⟨cres, s₁, tr₁⟩
  rw [hC] at hok
  cases cres with
  | error e => simpa [Backup, hC] using hok.1
  | ok h =>
      have hdev := Connect_ok_dev s h (by rw [hC])
      rw [hC] at hdev
      simp only [] at hok hdev
      rcases hx : SendToDevice h ReqKind.backup s₁ with ⟨xres, s₂, tr₂⟩
      have htr₂ : tr₂ = [Event.send h ReqKind.backup] := by
        have := SendToDevice_trace h ReqKind.backup s₁
        rw [hx] at this
        exact this
      subst htr₂
      have hdev₂ : s₂.dev = some h := by
        have := SendToDevice_dev h ReqKind.backup s₁
        rw [hx] at this
        simp only [] at this
        rw [this, hdev]
      cases xres with
      | error e =>
          simp [Backup, hC, hx, okTrace_append, openAfter_append, hok.1, hok.2,
            hdev, okTrace, openAfter]
      | ok m =>
          by_cases hm : m.kind = MsgKind.buttonRequest
          · have hL := backupButtonLoop_okTrace (s₂.connects.length + 1) m s₂ (some h)
              (Or.inr hdev₂.symm)
            rcases hLL : backupButtonLoop (s₂.connects.length + 1) m s₂ with ⟨lres, ls, ltr⟩
            rw [hLL] at hL
            simp only [] at hL
            simp [Backup, hC, hx, hm, hLL, okTrace_append, openAfter_append, hok.1,
              hok.2, hdev, hL.1, okTrace, openAfter]
          · simp [Backup, hC, hx, hm, okTrace_append, openAfter_append, hok.1, hok.2,
              hdev, okTrace, openAfter]

/-- `Disconnect` preserves the single-handle invariant from any starting
handle. -/
theorem Disconnect_okTrace (s : DState) (cur : Option Nat) :
    okTrace cur (Disconnect s).2.2 = true := by
  have hall := Connected_allSends s
  rw [Disconnect_eq s]
  cases hb : (Connected s).1 <;> cases hd : (Connected s).2.1.dev <;>
    simp [okTrace_append, okTrace_of_allSends _ _ hall, okTrace, openAfter]

/-- `FirmwareUpload` preserves the single-handle invariant. -/
theorem FirmwareUpload_okTrace (pl hsh : List Nat) (s : DState) (cur : Option Nat)
    (hinv : cur = none ∨ cur = s.dev) :
    okTrace cur (FirmwareUpload pl hsh s).2.2 = true := by
  by_cases hdt : s.deviceType = DeviceType.usb
  · have hok := Connect_okTrace s cur hinv
    rcases hC : Connect s with ⟨cres, s₁, tr₁⟩
    rw [hC] at hok
    cases cres with
    | error e => simpa [FirmwareUpload, hdt, hC] using hok.1
    | ok h =>
        have hdev := Connect_ok_dev s h (by rw [hC])
        rw [hC] at hdev
        simp only [] at hok hdev
        rcases hx1 : SendToDevice h ReqKind.initDevice s₁ with ⟨r1, s₂, t1⟩
        have ht1 : t1 = [Event.send h ReqKind.initDevice] := by
          have := SendToDevice_trace h ReqKind.initDevice s₁
          rw [hx1] at this
          exact this
        subst ht1
        cases r1 with
        | error e =>
            simp [FirmwareUpload, hdt, hC, hx1, okTrace_append, openAfter_append,
              hok.1, hok.2, hdev, okTrace, openAfter]
        | ok _ =>
            rcases hx2 : SendToDevice h ReqKind.firmwareErase s₂ with ⟨r2, s₃, t2⟩
            have ht2 : t2 = [Event.send h ReqKind.firmwareErase] := by
              have := SendToDevice_trace h ReqKind.firmwareErase s₂
              rw [hx2] at this
              exact this
            subst ht2
            cases r2 with
            | error e =>
                simp [FirmwareUpload, hdt, hC, hx1, hx2, okTrace_append,
                  openAfter_append, hok.1, hok.2, hdev, okTrace, openAfter]
            | ok erasemsg =>
                by_cases hek : erasemsg.kind = MsgKind.success
                · rcases hx3 : SendToDevice h ReqKind.firmwareUpload s₃ with ⟨r3, s₄, t3⟩
                  have ht3 : t3 = [Event.send h ReqKind.firmwareUpload] := by
                    have := SendToDevice_trace h ReqKind.firmwareUpload s₃
                    rw [hx3] at this
                    exact this
                  subst ht3
                  cases r3 with
                  | error e =>
                      simp [FirmwareUpload, hdt, hC, hx1, hx2, hx3, hek,
                        okTrace_append, openAfter_append, hok.1, hok.2, hdev,
                        okTrace, openAfter]
                  | ok uploadmsg =>
                      by_cases huk : uploadmsg.kind = MsgKind.buttonRequest
                      · rcases hx4 : SendToDevice h ReqKind.buttonAck s₄ with ⟨r4, s₅, t4⟩
                        have ht4 : t4 = [Event.send h ReqKind.buttonAck] := by
                          have := SendToDevice_trace h ReqKind.buttonAck s₄
                          rw [hx4] at this
                          exact this
                        subst ht4
                        cases r4 <;>
                          simp [FirmwareUpload, hdt, hC, hx1, hx2, hx3, hx4, hek, huk,
                            okTrace_append, openAfter_append, hok.1, hok.2, hdev,
                            okTrace, openAfter]
                      · simp [FirmwareUpload, hdt, hC, hx1, hx2, hx3, hek, huk,
                          okTrace_append, openAfter_append, hok.1, hok.2, hdev,
                          okTrace, openAfter]
                · simp [FirmwareUpload, hdt, hC, hx1, hx2, hek, okTrace_append,
                    openAfter_append, hok.1, hok.2, hdev, okTrace, openAfter]
  · simp [FirmwareUpload, hdt, okTrace]

/-- The button-ack write step emits send events only. -/
theorem buttonAckWrite_allSends (h : Nat) (dt : DeviceType) (sp : Bool) (ws : List Bool) :
    allSends (buttonAckWrite h dt sp ws).2.2 = true := by
  cases ws with
  | nil => simp [buttonAckWrite, allSends]
  | cons wa ws₁ =>
      cases wa
      · simp [buttonAckWrite, allSends]
      · cases sp
        · simp [buttonAckWrite, allSends]
        · by_cases hdt : dt = DeviceType.emulator
          · cases ws₁ with
            | nil => simp [buttonAckWrite, hdt, allSends]
            | cons w2 ws₂ => simp [buttonAckWrite, hdt, allSends]
          · simp [buttonAckWrite, hdt, allSends]

/-- The entropy response processor emits send events only. -/
theorem processGetEntropyResponse_allSends (h : Nat) (dt : DeviceType) (sp : Bool) :
    ∀ (rs : List (Option WireMessage)) (m : WireMessage) (ws : List Bool),
      allSends (processGetEntropyResponse h dt sp m ws rs).2.2.2 = true := by
  intro rs
  induction rs with
  | nil =>
      intro m ws
      by_cases h1 : m.kind = MsgKind.entropy
      · simp [processGetEntropyResponse, h1, allSends]
      · by_cases h2 : m.kind = MsgKind.buttonRequest
        · have hbw := buttonAckWrite_allSends h dt sp ws
          rcases hb : buttonAckWrite h dt sp ws with ⟨br, bw, bt⟩
          rw [hb] at hbw
          cases br <;>
            simpa [processGetEntropyResponse, h1, h2, hb] using hbw
        · rcases hdm : DecodeFailMsg m with t | e <;>
            simp [processGetEntropyResponse, h1, h2, hdm, allSends]
  | cons r rest ih =>
      intro m ws
      by_cases h1 : m.kind = MsgKind.entropy
      · cases r <;> simp [processGetEntropyResponse, h1, allSends]
      · by_cases h2 : m.kind = MsgKind.buttonRequest
        · have hbw := buttonAckWrite_allSends h dt sp ws
          rcases hb : buttonAckWrite h dt sp ws with ⟨br, bw, bt⟩
          rw [hb] at hbw
          cases r with
          | none =>
              cases br <;>
                simpa [processGetEntropyResponse, h1, h2, hb] using hbw
          | some m' =>
              cases br with
              | error e =>
                  simpa [processGetEntropyResponse, h1, h2, hb] using hbw
              | ok _ =>
                  have hrec := ih m' bw
                  rcases hp : processGetEntropyResponse h dt sp m' bw rest
                    with ⟨pr, pw, prd, pt⟩
                  rw [hp] at hrec
                  simp [processGetEntropyResponse, h1, h2, hb, hp, allSends_append,
                    hbw, hrec]
        · rcases hdm : DecodeFailMsg m with t | e <;>
            cases r <;>
              simp [processGetEntropyResponse, h1, h2, hdm, allSends]

/-- A `getEntropy` round emits send events only. -/
theorem getEntropy_allSends (h n : Nat) (s : DState) :
    allSends (getEntropy h n s).2.2 = true := by
  rcases hx : SendToDevice h (ReqKind.getEntropy n) s with ⟨xres, s₁, tr₁⟩
  have htr₁ : tr₁ = [Event.send h (ReqKind.getEntropy n)] := by
    have := SendToDevice_trace h (ReqKind.getEntropy n) s
    rw [hx] at this
    exact this
  subst htr₁
  cases xres with
  | error e => simp [getEntropy, hx, allSends]
  | ok m =>
      have hp := processGetEntropyResponse_allSends h s₁.deviceType
        s₁.simulateButtonPress s₁.reads m s₁.writes
      rcases hpp : processGetEntropyResponse h s₁.deviceType s₁.simulateButtonPress m
        s₁.writes s₁.reads with ⟨pr, pw, prd, pt⟩
      rw [hpp] at hp
      simp [getEntropy, hx, hpp, allSends_append, allSends, hp]

/-- The streaming loop emits send events only. -/
theorem entropyLoop_allSends (h T : Nat) :
    ∀ (fuel received : Nat) (written : List (List Nat)) (s : DState),
      allSends (entropyLoop h T fuel received written s).2.2.1 = true := by
  intro fuel
  induction fuel with
  | zero =>
      intro received written s
      by_cases hlt : received < T <;> simp [entropyLoop, hlt, allSends]
  | succ f ih =>
      intro received written s
      by_cases hlt : received < T
      · have hge := getEntropy_allSends h (T - received) s
        rcases hx : getEntropy h (T - received) s with ⟨gres, s₁, tr₁⟩
        rw [hx] at hge
        cases gres with
        | error e => simpa [entropyLoop, hlt, hx] using hge
        | ok bytes =>
            have hrec := ih (received + bytes.length) (written ++ [bytes]) s₁
            rcases hL : entropyLoop h T f (received + bytes.length) (written ++ [bytes]) s₁
              with ⟨lres, s₂, tr₂, w₂⟩
            rw [hL] at hrec
            simp [entropyLoop, hlt, hx, hL, allSends_append, hge, hrec]
      · simp [entropyLoop, hlt, allSends]

/-- `SaveDeviceEntropyInFile` preserves the single-handle invariant. -/
theorem SaveDeviceEntropyInFile_okTrace (uso : Bool) (T : Nat) (s : DState)
    (cur : Option Nat) (hinv : cur = none ∨ cur = s.dev) :
    okTrace cur (SaveDeviceEntropyInFile uso T s).2.2.1 = true := by
  have hok := Connect_okTrace s cur hinv
  rcases hC : Connect s with ⟨cres, s₁, tr₁⟩
  rw [hC] at hok
  cases cres with
  | error e => simpa [SaveDeviceEntropyInFile, hC] using hok.1
  | ok h =>
      have hge := getEntropy_allSends h T s₁
      rcases hx : getEntropy h T s₁ with ⟨gres, s₂, tr₂⟩
      rw [hx] at hge
      cases gres with
      | error e =>
          rcases hD : Disconnect s₂ with ⟨dres, ds, dtr⟩
          have hDok : ∀ c, okTrace c dtr = true := by
            intro c
            have := Disconnect_okTrace s₂ c
            rw [hD] at this
            exact this
          simp [SaveDeviceEntropyInFile, hC, hx, hD, okTrace_append, openAfter_append,
            hok.1, hok.2, okTrace_of_allSends _ _ hge, openAfter_of_allSends _ _ hge,
            hDok]
      | ok bytes =>
          have hlp := entropyLoop_allSends h T s₂.exchanges.length bytes.length [bytes] s₂
          rcases hL : entropyLoop h T s₂.exchanges.length bytes.length [bytes] s₂
            with ⟨lres, s₃, tr₃, w₃⟩
          rw [hL] at hlp
          rcases hD : Disconnect s₃ with ⟨dres, ds, dtr⟩
          have hDok : ∀ c, okTrace c dtr = true := by
            intro c
            have := Disconnect_okTrace s₃ c
            rw [hD] at this
            exact this
          cases lres <;>
            simp [SaveDeviceEntropyInFile, hC, hx, hL, hD, okTrace_append,
              openAfter_append, hok.1, hok.2, okTrace_of_allSends _ _ hge,
              openAfter_of_allSends _ _ hge, okTrace_of_allSends _ _ hlp,
              openAfter_of_allSends _ _ hlp, hDok]

/-- C7.  `Connect()` first closes any previously held device instance (the
close is the first event of its trace), and opens exactly one transport
handle via the driver when the driver yields one (none when it errors),
storing it as the held instance.  Consequently at most one open handle
exists per `Device` instance at any time: replaying the event trace of
every modeled operation from any starting handle consistent with the held
instance never opens a second handle while one is open (`okTrace`). -/
theorem C7_single_open_handle :
    (∀ (s : DState) (h : Nat), s.dev = some h →
      ((Connect s).2.2).head? = some (Event.devClose h)) ∧
    (∀ s : DState, s.connects.head? = some true →
      (Connect s).1 = Except.ok s.nextHandle ∧
      (Connect s).2.1.dev = some s.nextHandle ∧
      opensIn (Connect s).2.2 = [s.nextHandle]) ∧
    (∀ s : DState, s.connects.head? ≠ some true →
      opensIn (Connect s).2.2 = [] ∧ (Connect s).2.1.dev = none) ∧
    (∀ (s : DState) (cur : Option Nat), cur = none ∨ cur = s.dev →
      okTrace cur (Connect s).2.2 = true) ∧
    (∀ (s : DState) (cur : Option Nat), cur = none ∨ cur = s.dev →
      okTrace cur (Disconnect s).2.2 = true) ∧
    (∀ (n si : Nat) (c : Bool) (s : DState) (cur : Option Nat),
      cur = none ∨ cur = s.dev → okTrace cur (AddressGen n si c s).2.2 = true) ∧
    (∀ (up : Option Bool) (lbl lang : List Nat) (s : DState) (cur : Option Nat),
      cur = none ∨ cur = s.dev → okTrace cur (ApplySettings up lbl lang s).2.2 = true) ∧
    (∀ (s : DState) (cur : Option Nat), cur = none ∨ cur = s.dev →
      okTrace cur (Backup s).2.2 = true) ∧
    (∀ (s : DState) (cur : Option Nat), cur = none ∨ cur = s.dev →
      okTrace cur (Cancel s).2.2 = true) ∧
    (∀ (a b c : List Nat) (s : DState) (cur : Option Nat), cur = none ∨ cur = s.dev →
      okTrace cur (CheckMessageSignature a b c s).2.2 = true) ∧
    (∀ (rp : Option Bool) (s : DState) (cur : Option Nat), cur = none ∨ cur = s.dev →
      okTrace cur (ChangePin rp s).2.2 = true) ∧
    (∀ (s : DState) (cur : Option Nat),
      okTrace cur (Connected s).2.2 = true) ∧
    (∀ (pl hsh : List Nat) (s : DState) (cur : Option Nat), cur = none ∨ cur = s.dev →
      okTrace cur (FirmwareUpload pl hsh s).2.2 = true) ∧
    (∀ (s : DState) (cur : Option Nat), cur = none ∨ cur = s.dev →
      okTrace cur (GetFeatures s).2.2 = true) ∧
    (∀ (wc : Nat) (up : Bool) (s : DState) (cur : Option Nat), cur = none ∨ cur = s.dev →
      okTrace cur (GenerateMnemonic wc up s).2.2 = true) ∧
    (∀ (wc : Nat) (up dr : Bool) (s : DState) (cur : Option Nat), cur = none ∨ cur = s.dev →
      okTrace cur (Recovery wc up dr s).2.2 = true) ∧
    (∀ (mn : List Nat) (s : DState) (cur : Option Nat), cur = none ∨ cur = s.dev →
      okTrace cur (SetMnemonic mn s).2.2 = true) ∧
    (∀ (s : DState) (cur : Option Nat), cur = none ∨ cur = s.dev →
      okTrace cur (TransactionSign s).2.2 = true) ∧
    (∀ (i : Nat) (msg : List Nat) (s : DState) (cur : Option Nat), cur = none ∨ cur = s.dev →
      okTrace cur (SignMessage i msg s).2.2 = true) ∧
    (∀ (s : DState) (cur : Option Nat), cur = none ∨ cur = s.dev →
      okTrace cur (Wipe s).2.2 = true) ∧
    (∀ (p : List Nat) (s : DState) (cur : Option Nat), cur = none ∨ cur = s.dev →
      okTrace cur (PinMatrixAck p s).2.2 = true) ∧
    (∀ (w : List Nat) (s : DState) (cur : Option Nat), cur = none ∨ cur = s.dev →
      okTrace cur (WordAck w s).2.2 = true) ∧
    (∀ (p : List Nat) (s : DState) (cur : Option Nat), cur = none ∨ cur = s.dev →
      okTrace cur (PassphraseAck p s).2.2 = true) ∧
    (∀ (s : DState) (cur : Option Nat), cur = none ∨ cur = s.dev →
      okTrace cur (ButtonAck s).2.2 = true) ∧
    (∀ (press : Bool) (bt : Int) (s : DState) (cur : Option Nat),
      okTrace cur (SetAutoPressButton press bt s).2.2 = true) ∧
    (∀ (uso : Bool) (T : Nat) (s : DState) (cur : Option Nat), cur = none ∨ cur = s.dev →
      okTrace cur (SaveDeviceEntropyInFile uso T s).2.2.1 = true) ∧
    (∀ (h : Nat) (s : DState) (cur : Option Nat),
      okTrace cur (SimulateButtonPress h s).2.2 = true) := by
  refine ⟨?_, ?_, ?_, ?_, ?_, ?_, ?_, ?_, ?_, ?_, ?_, ?_, ?_, ?_, ?_, ?_, ?_, ?_,
    ?_, ?_, ?_, ?_, ?_, ?_, ?_, ?_, ?_⟩
  · intro s h hd
    obtain ⟨t, ht⟩ := Connect_trace_head s h hd
    rw [ht]
    rfl
  · intro s hc
    cases hcc : s.connects with
    | nil => rw [hcc] at hc; simp at hc
    | cons b ct =>
        rw [hcc] at hc
        simp at hc
        subst hc
        cases hd : s.dev <;> simp [Connect, hd, hcc, opensIn]
  · intro s hc
    cases hcc : s.connects with
    | nil => cases hd : s.dev <;> simp [Connect, hd, hcc, opensIn]
    | cons b ct =>
        rw [hcc] at hc
        cases b
        · cases hd : s.dev <;> simp [Connect, hd, hcc, opensIn]
        · simp at hc
  · intro s cur hinv
    exact (Connect_okTrace s cur hinv).1
  · intro s cur _
    exact Disconnect_okTrace s cur
  · intro n si c s cur hinv
    exact plainOp_okTrace _ _ s cur hinv
  · intro up lbl lang s cur hinv
    exact plainOp_okTrace _ _ s cur hinv
  · intro s cur hinv
    exact Backup_okTrace s cur hinv
  · intro s cur hinv
    exact plainOp_okTrace _ _ s cur hinv
  · intro a b c s cur hinv
    exact plainOp_okTrace _ _ s cur hinv
  · intro rp s cur hinv
    exact brOp_okTrace _ _ s cur hinv
  · intro s cur
    exact okTrace_of_allSends _ cur (Connected_allSends s)
  · intro pl hsh s cur hinv
    exact FirmwareUpload_okTrace pl hsh s cur hinv
  · intro s cur hinv
    exact plainOp_okTrace _ _ s cur hinv
  · intro wc up s cur hinv
    exact brOp_okTrace _ _ s cur hinv
  · intro wc up dr s cur hinv
    exact brOp_okTrace _ _ s cur hinv
  · intro mn s cur hinv
    exact brOp_okTrace _ _ s cur hinv
  · intro s cur hinv
    exact plainOp_okTrace _ _ s cur hinv
  · intro i msg s cur hinv
    exact brOp_okTrace _ _ s cur hinv
  · intro s cur hinv
    exact brOp_okTrace _ _ s cur hinv
  · intro p s cur hinv
    exact plainOp_okTrace _ _ s cur hinv
  · intro w s cur hinv
    exact plainOp_okTrace _ _ s cur hinv
  · intro p s cur hinv
    exact plainOp_okTrace _ _ s cur hinv
  · intro s cur hinv
    exact (ButtonAck_okTrace s cur hinv).1
  · intro press bt s cur
    by_cases hdt : s.deviceType = DeviceType.emulator
    · cases press
      · simp [SetAutoPressButton, hdt, okTrace]
      · by_cases hb : bt = 0 ∨ bt = 1 ∨ bt = 2 <;>
          simp [SetAutoPressButton, hdt, hb, okTrace]
    · simp [SetAutoPressButton, hdt, okTrace]
  · intro uso T s cur hinv
    exact SaveDeviceEntropyInFile_okTrace uso T s cur hinv
  · intro h s cur
    by_cases hdt : s.deviceType = DeviceType.emulator
    · cases hw : s.writes with
      | nil => simp [SimulateButtonPress, hdt, writeMsg, hw, okTrace]
      | cons w wt => simp [SimulateButtonPress, hdt, writeMsg, hw, okTrace]
    · simp [SimulateButtonPress, hdt, okTrace]

/-- C7, witness: the connect contract and the invariant applied at
concrete device states (a fresh connect, a two-round `Backup`, and a
`Disconnect` on a held handle). -/
theorem C7_single_open_handle_witness :
    ((Connect cexState).1 = Except.ok 0 ∧
      (Connect cexState).2.1.dev = some 0 ∧
      opensIn (Connect cexState).2.2 = [0]) ∧
    okTrace (some 5) (Disconnect c8FailState).2.2 = true ∧
    okTrace none (Backup c10State).2.2 = true :=
  ⟨C7_single_open_handle.2.1 cexState rfl,
   C7_single_open_handle.2.2.2.2.1 c8FailState (some 5) (Or.inr rfl),
   C7_single_open_handle.2.2.2.2.2.2.2.1 c10State none (Or.inl rfl)⟩

end Skywallet
